import Mathlib

/-!
SystemZ address-mode selection (SystemZISelDAGToDAG.cpp)

A shallow embedding of the address matcher of the SystemZ instruction
selector, `lib/Target/SystemZ/SystemZISelDAGToDAG.cpp`, and theorems about it.

Embedding:

* `SDValue` : the selection-DAG nodes the matcher can be handed. A DAG is
  finite and acyclic, so a node is represented by the expression it roots;
  structurally equal expressions are the same node (the DAG is CSE-uniqued).
  A null `SDValue` is `none : Option SDValue`.
* `SelectionDAG` : what the matcher asks of `CurDAG` and of the use lists:
  the opcodes of the users of a node, the `MaskedValueIsZero` oracle and the
  known-zero mask of `ComputeMaskedBits`. They live outside the translated
  file and are taken as parameters. The use lists are state: the `SUB` case
  creates the nodes `0` and `0 - RHS`, which become users of their operands,
  and restoring the accumulator does not undo that. `usesAfterNeg` is the
  effect of the two creating calls on the use lists; `addNegUsers` is that
  effect when both nodes are new.
* `MatchAddressDAG` is the matcher with the DAG threaded through every nested
  call; `MatchAddress` is its result and `dagAfterMatch` the DAG it leaves.
  `SelectAddrRRI12` makes its second call on the DAG its first call left.
* `SystemZRRIAddressMode` : the accumulator, one Lean field per C++ field.
* Functions taking `SystemZRRIAddressMode &AM` return the pair
  (result flag, accumulator after the call); `true` means "cannot be done".
* `int64_t` values are `Int`s kept in range by `toInt64` (two's complement
  wrap-around) wherever the source adds.
* `MatchAddressFuel` is `MatchAddress` with a budget of nested calls; it is
  what the termination statement is about.
* `SDValue.eval` and `SystemZRRIAddressMode.denote` give nodes and
  accumulators their 64-bit values under a `Valuation`.
-/

namespace SystemZ

/-! ### Nodes -/

/-- The opcodes the selector tells apart. `Other` stands for every opcode the
file never names. -/
inductive Opcode where
  | Constant
  | FrameIndex
  | SUB
  | ADD
  | OR
  | CopyToReg
  | Register
  | TargetFrameIndex
  | TargetConstant
  | Other
  deriving DecidableEq, Repr

/-- A (non-null) DAG value. `Constant` carries the value of its `APInt`,
`FrameIndex` the frame slot, `Other` an identifier of a node whose opcode the
matcher does not look into. `Register`, `TargetFrameIndex` and
`TargetConstant` are the nodes the selectors create for their outputs. -/
inductive SDValue where
  | Constant (val : Int)
  | FrameIndex (idx : Int)
  | SUB (lhs rhs : SDValue)
  | ADD (lhs rhs : SDValue)
  | OR (lhs rhs : SDValue)
  | Register (reg : Nat)
  | TargetFrameIndex (idx : Int)
  | TargetConstant (val : Int)
  | Other (id : Nat)
  deriving DecidableEq, Repr

/-- `SDValue::getOpcode`. -/
def SDValue.getOpcode : SDValue → Opcode
  | .Constant _ => .Constant
  | .FrameIndex _ => .FrameIndex
  | .SUB _ _ => .SUB
  | .ADD _ _ => .ADD
  | .OR _ _ => .OR
  | .Register _ => .Register
  | .TargetFrameIndex _ => .TargetFrameIndex
  | .TargetConstant _ => .TargetConstant
  | .Other _ => .Other

/-- `dyn_cast<ConstantSDNode>`: the `APInt` value of a node whose opcode is
`Constant` or `TargetConstant` (the two opcodes `ConstantSDNode` covers), and
`none` for a null result. -/
def SDValue.dynCastConstantSDNode : SDValue → Option Int
  | .Constant val => some val
  | .TargetConstant val => some val
  | _ => none

/-- `dyn_cast<FrameIndexSDNode>`: the index of a node whose opcode is
`FrameIndex` or `TargetFrameIndex` (the two opcodes `FrameIndexSDNode`
covers), and `none` for a null result. -/
def SDValue.dynCastFrameIndexSDNode : SDValue → Option Int
  | .FrameIndex idx => some idx
  | .TargetFrameIndex idx => some idx
  | _ => none

/-- Two's-complement reduction of an integer to `int64_t`. -/
def toInt64 (x : Int) : Int :=
  (x + 9223372036854775808) % 18446744073709551616 - 9223372036854775808

/-- `ConstantSDNode::getSExtValue`: the constant as an `int64_t`. -/
def getSExtValue (val : Int) : Int := toInt64 val

/-- The surrounding DAG as the matcher sees it: its use lists, which change
when the matcher creates nodes, and the services it consumes. -/
structure SelectionDAG where
  /-- Opcodes of the users of a node, in use-list order. -/
  uses : SDValue → List Opcode
  /-- `SelectionDAG::MaskedValueIsZero(Op, Mask)`. -/
  MaskedValueIsZero : SDValue → Int → Bool
  /-- The `KnownZero` mask that `SelectionDAG::ComputeMaskedBits` returns for
  the all-ones demanded mask, read with `getZExtValue()`. -/
  KnownZero : SDValue → Nat
  /-- The use lists after `Zero = CurDAG->getConstant(0, VT)` and
  `Neg = CurDAG->getNode(ISD::SUB, dl, VT, Zero, RHS)`, from the use lists
  before and `RHS`: a node that is created becomes a user of its operands.
  What the two calls do with nodes that exist already is decided by the DAG,
  outside the translated file. -/
  usesAfterNeg : (SDValue → List Opcode) → SDValue → SDValue → List Opcode

/-- `hasOneUse`: the use list has exactly one entry. -/
def hasOneUse (dag : SelectionDAG) (N : SDValue) : Bool :=
  (dag.uses N).length == 1

/-- `CurDAG->getConstant(Val, VT)`. -/
def getConstant (val : Int) : SDValue := .Constant val

/-- The node `Neg` of the subtraction case, `0 - RHS`, and the DAG after the
two calls that create it: `CurDAG->getConstant(0, VT)` and
`CurDAG->getNode(ISD::SUB, dl, VT, Zero, RHS)`. -/
def SelectionDAG.getNeg (dag : SelectionDAG) (RHS : SDValue) : SDValue × SelectionDAG :=
  let Zero := getConstant 0
  let Neg := SDValue.SUB Zero RHS
  (Neg, { dag with uses := dag.usesAfterNeg dag.uses RHS })

/-- Use lists after `Zero` and `Neg = Zero - RHS` were created as new nodes:
`Neg` is one more user, of opcode `SUB`, of `Zero` and of `RHS`. -/
def addNegUsers (uses : SDValue → List Opcode) (RHS : SDValue) : SDValue → List Opcode :=
  fun n =>
    uses n ++ (if n = getConstant 0 then [Opcode.SUB] else []) ++
      (if n = RHS then [Opcode.SUB] else [])

/-- `CurDAG->getRegister(Reg, VT)`. -/
def getRegister (reg : Nat) : SDValue := .Register reg

/-- `CurDAG->getTargetConstant(Val, MVT::i64)`. -/
def getTargetConstant (val : Int) : SDValue := .TargetConstant val

/-- `CurDAG->getTargetFrameIndex(FI, VT)`. -/
def getTargetFrameIndex (idx : Int) : SDValue := .TargetFrameIndex idx

/-! ### The accumulator -/

/-- The `BaseType` enum of `SystemZRRIAddressMode`. -/
inductive BaseKind where
  | RegBase
  | FrameIndexBase
  deriving DecidableEq, Repr

/-- `struct SystemZRRIAddressMode`. `BaseReg` and `BaseFrameIndex` are the two
members `Base.Reg` and `Base.FrameIndex`. -/
structure SystemZRRIAddressMode where
  BaseType : BaseKind
  BaseReg : Option SDValue
  BaseFrameIndex : Int
  IndexReg : Option SDValue
  Disp : Int
  deriving DecidableEq, Repr

/-- The default constructor: `BaseType(RegBase), IndexReg(), Disp(0)`, and a
null `Base.Reg`. The source leaves `Base.FrameIndex` indeterminate; it is read
only under `FrameIndexBase`, after having been written, and is 0 here. -/
def SystemZRRIAddressMode.fresh : SystemZRRIAddressMode :=
  { BaseType := .RegBase, BaseReg := none, BaseFrameIndex := 0,
    IndexReg := none, Disp := 0 }

/-! ### Displacement-fitting predicates -/

/-- The `uint64_t` with the bits of an `int64_t`. -/
def toUInt64 (x : Int) : Nat := (x % 18446744073709551616).toNat

/-- The `uint64_t` constant `~0ULL`. -/
def allOnes64 : Nat := 18446744073709551615

/-- Bitwise complement `~x` of a `uint64_t`. -/
def not64 (x : Nat) : Nat := allOnes64 - x % 18446744073709551616

/-- `isImmSExt20(int64_t Val, int64_t &Imm)`: `some Imm` when the source
returns true having written `Imm`, `none` when it returns false. -/
def isImmSExt20 (Val : Int) : Option Int :=
  if Val ≥ -524288 ∧ Val ≤ 524287 then some Val else none

/-- `isImmZExt12(int64_t Val, int64_t &Imm)`: `some Imm` when the source
returns true having written `Imm`, `none` when it returns false. -/
def isImmZExt12 (Val : Int) : Option Int :=
  if Val ≥ 0 ∧ Val ≤ 0xFFF then some Val else none

/-- `isImmSExt20(SDValue Op, int64_t &Imm)`, through the `SDNode *` overload:
false unless the node is a `Constant`. -/
def isImmSExt20Node (Op : SDValue) : Option Int :=
  match Op with
  | .Constant val => isImmSExt20 (getSExtValue val)
  | _ => none

/-- `isImmZExt12(SDValue Op, int64_t &Imm)`, through the `SDNode *` overload:
false unless the node is a `Constant`. -/
def isImmZExt12Node (Op : SDValue) : Option Int :=
  match Op with
  | .Constant val => isImmZExt12 (getSExtValue val)
  | _ => none

/-! ### The matcher -/

/-- `SystemZDAGToDAGISel::MatchAddressBase`. -/
def MatchAddressBase (N : SDValue) (AM : SystemZRRIAddressMode) :
    Bool × SystemZRRIAddressMode :=
  -- Is the base register already occupied?
  if AM.BaseType ≠ .RegBase ∨ AM.BaseReg.isSome then
    -- If so, check to see if the scale index register is set.
    if AM.IndexReg.isNone then
      (false, { AM with IndexReg := some N })
    else
      -- Otherwise, we cannot select it.
      (true, AM)
  else
    -- Default, generate it as a register.
    (false, { AM with BaseType := .RegBase, BaseReg := some N })

/-- `SystemZDAGToDAGISel::MatchAddress` with the DAG threaded through: the
result is the pair (result flag, accumulator after the call) and the DAG after
the call. Every `break` of the source's switch reaches the final
`return MatchAddressBase(N, AM)`, written out per branch. `AM = Backup`
restores the accumulator only; the nodes a nested call created stay. -/
def MatchAddressDAG (dag : SelectionDAG) (N : SDValue) (AM : SystemZRRIAddressMode)
    (is12Bit : Bool) (Depth : Nat) : (Bool × SystemZRRIAddressMode) × SelectionDAG :=
  -- Limit recursion.
  if Depth > 5 then (MatchAddressBase N AM, dag)
  else
    match N with
    | .Constant val =>
      let Val := getSExtValue val
      let Match := if is12Bit then isImmZExt12 (toInt64 (AM.Disp + Val))
                   else isImmSExt20 (toInt64 (AM.Disp + Val))
      match Match with
      | some Imm => ((false, { AM with Disp := Imm }), dag)
      | none => (MatchAddressBase (.Constant val) AM, dag)
    | .FrameIndex idx =>
      if AM.BaseType = .RegBase ∧ AM.BaseReg.isNone then
        ((false, { AM with BaseType := .FrameIndexBase, BaseFrameIndex := idx }), dag)
      else (MatchAddressBase (.FrameIndex idx) AM, dag)
    | .SUB A B =>
      let Backup := AM
      -- Test if the LHS of the sub can be folded.
      let r := MatchAddressDAG dag A AM is12Bit (Depth + 1)
      if r.1.1 then (MatchAddressBase (.SUB A B) Backup, r.2)
      -- Test if the index field is free for use.
      else if r.1.2.IndexReg.isSome then (MatchAddressBase (.SUB A B) Backup, r.2)
      -- If the base is a register with multiple uses, this transformation may
      -- save a mov. Otherwise it's probably better not to do it.
      else if r.1.2.BaseType = .RegBase ∧
          (r.1.2.BaseReg.isNone ∨ r.1.2.BaseReg.any (hasOneUse r.2)) then
        (MatchAddressBase (.SUB A B) Backup, r.2)
      else
        -- Ok, the transformation is legal and appears profitable. Go for it.
        let RHS := B
        let Neg := r.2.getNeg RHS
        ((false, { r.1.2 with IndexReg := some Neg.1 }), Neg.2)
    | .ADD A B =>
      let Backup := AM
      let r1 := MatchAddressDAG dag A AM is12Bit (Depth + 1)
      let first : Option SystemZRRIAddressMode × SelectionDAG :=
        if r1.1.1 then (none, r1.2)
        else
          let r2 := MatchAddressDAG r1.2 B r1.1.2 is12Bit (Depth + 1)
          if r2.1.1 then (none, r2.2) else (some r2.1.2, r2.2)
      match first.1 with
      | some AM1 => ((false, AM1), first.2)
      | none =>
        let s1 := MatchAddressDAG first.2 B Backup is12Bit (Depth + 1)
        let second : Option SystemZRRIAddressMode × SelectionDAG :=
          if s1.1.1 then (none, s1.2)
          else
            let s2 := MatchAddressDAG s1.2 A s1.1.2 is12Bit (Depth + 1)
            if s2.1.1 then (none, s2.2) else (some s2.1.2, s2.2)
        match second.1 with
        | some AM2 => ((false, AM2), second.2)
        | none =>
          -- If we couldn't fold both operands into the address at the same
          -- time, see if we can just put each operand into a register and fold
          -- at least the add.
          if Backup.BaseType = .RegBase ∧ Backup.BaseReg.isNone ∧
              Backup.IndexReg.isNone then
            ((false, { Backup with BaseReg := some A, IndexReg := some B }), second.2)
          else (MatchAddressBase (.ADD A B) Backup, second.2)
    | .OR L R =>
      -- Handle "X | C" as "X + C" iff X is known to have C bits clear.
      match R.dynCastConstantSDNode with
      | some c =>
        let Backup := AM
        let Offset := getSExtValue c
        let MatchOffset := if is12Bit then isImmZExt12 (toInt64 (AM.Disp + Offset))
                           else isImmSExt20 (toInt64 (AM.Disp + Offset))
        match MatchOffset with
        | some Imm =>
          -- LHS should be an addr mode.
          let r := MatchAddressDAG dag L AM is12Bit (Depth + 1)
          if !r.1.1 && r.2.MaskedValueIsZero L c then
            ((false, { r.1.2 with Disp := Imm }), r.2)
          else (MatchAddressBase (.OR L R) Backup, r.2)
        | none => (MatchAddressBase (.OR L R) Backup, dag)
      | none => (MatchAddressBase (.OR L R) AM, dag)
    | N => (MatchAddressBase N AM, dag)

/-- `SystemZDAGToDAGISel::MatchAddress`: the result flag and the accumulator
after the call, on the DAG as it is when the call is made. -/
def MatchAddress (dag : SelectionDAG) (N : SDValue) (AM : SystemZRRIAddressMode)
    (is12Bit : Bool) (Depth : Nat) : Bool × SystemZRRIAddressMode :=
  (MatchAddressDAG dag N AM is12Bit Depth).1

/-- The DAG after the call `MatchAddress(N, AM, is12Bit, Depth)`. -/
def dagAfterMatch (dag : SelectionDAG) (N : SDValue) (AM : SystemZRRIAddressMode)
    (is12Bit : Bool) (Depth : Nat) : SelectionDAG :=
  (MatchAddressDAG dag N AM is12Bit Depth).2

/-- The DAG after the attempt `!MatchAddress(X, AM, ..) && !MatchAddress(Y, AM, ..)`
of the addition case: the second call is made only when the first succeeded. -/
def dagAfterPair (dag : SelectionDAG) (X Y : SDValue) (AM : SystemZRRIAddressMode)
    (is12Bit : Bool) (Depth : Nat) : SelectionDAG :=
  if (MatchAddress dag X AM is12Bit Depth).1 then dagAfterMatch dag X AM is12Bit Depth
  else dagAfterMatch (dagAfterMatch dag X AM is12Bit Depth) Y
    (MatchAddress dag X AM is12Bit Depth).2 is12Bit Depth

/-- Nodes `MatchAddress` hands to `MatchAddressBase` at once: any opcode other
than the five its switch names, and an `OR` whose right operand is not a
`ConstantSDNode`. -/
def SDValue.isDefaultCase : SDValue → Bool
  | .Constant _ => false
  | .FrameIndex _ => false
  | .SUB _ _ => false
  | .ADD _ _ => false
  | .OR _ R => R.dynCastConstantSDNode.isNone
  | _ => true

/-! ### Operand emission and the selectors -/

/-- `SystemZDAGToDAGISel::getAddressOperands`: the triple
`(Base, Disp, Index)` written through the three reference parameters. -/
def getAddressOperands (AM : SystemZRRIAddressMode) :
    Option SDValue × SDValue × Option SDValue :=
  let Base := if AM.BaseType = .RegBase then AM.BaseReg
              else some (getTargetFrameIndex AM.BaseFrameIndex)
  (Base, getTargetConstant AM.Disp, AM.IndexReg)

/-- The tail shared by `SelectAddrRI32` and `SelectAddrRI`: displacement 0 and
the address itself as base, `[r+0]`. -/
def selectBaseOnly (Addr : SDValue) : Option (SDValue × SDValue) :=
  let Disp := getTargetConstant 0
  match Addr.dynCastFrameIndexSDNode with
  | some idx => some (getTargetFrameIndex idx, Disp)
  | none => some (Addr, Disp)

/-- `SystemZDAGToDAGISel::SelectAddrRI32`: `some (Base, Disp)` when the source
returns true (it always does). -/
def SelectAddrRI32 (dag : SelectionDAG) (Addr : SDValue) : Option (SDValue × SDValue) :=
  match Addr with
  | .ADD Op0 Op1 =>
    match isImmZExt12Node Op1 with
    | some Imm =>
      let Disp := getTargetConstant Imm
      match Op0.dynCastFrameIndexSDNode with
      | some idx => some (getTargetFrameIndex idx, Disp)
      | none => some (Op0, Disp)
    | none => selectBaseOnly (.ADD Op0 Op1)
  | .OR Op0 Op1 =>
    match isImmZExt12Node Op1 with
    | some Imm =>
      -- If this is an or of disjoint bitfields, we can codegen this as an add
      let LHSKnownZero := dag.KnownZero Op0 % 18446744073709551616
      if (LHSKnownZero ||| not64 (toUInt64 Imm)) == allOnes64 then
        some (Op0, getTargetConstant Imm)
      else selectBaseOnly (.OR Op0 Op1)
    | none => selectBaseOnly (.OR Op0 Op1)
  | Addr =>
    match Addr.dynCastConstantSDNode with
    | some _ =>
      -- Loading from a constant address.
      match isImmZExt12Node Addr with
      | some Imm => some (getRegister 0, getTargetConstant Imm)
      | none => selectBaseOnly Addr
    | none => selectBaseOnly Addr

/-- `SystemZDAGToDAGISel::SelectAddrRI`: `some (Base, Disp)` when the source
returns true (it always does). -/
def SelectAddrRI (dag : SelectionDAG) (Addr : SDValue) : Option (SDValue × SDValue) :=
  match Addr with
  | .ADD Op0 Op1 =>
    match isImmSExt20Node Op1 with
    | some Imm =>
      let Disp := getTargetConstant Imm
      match Op0.dynCastFrameIndexSDNode with
      | some idx => some (getTargetFrameIndex idx, Disp)
      | none => some (Op0, Disp)
    | none => selectBaseOnly (.ADD Op0 Op1)
  | .OR Op0 Op1 =>
    match isImmSExt20Node Op1 with
    | some Imm =>
      -- If this is an or of disjoint bitfields, we can codegen this as an add
      let LHSKnownZero := dag.KnownZero Op0 % 18446744073709551616
      if (LHSKnownZero ||| not64 (toUInt64 Imm)) == allOnes64 then
        some (Op0, getTargetConstant Imm)
      else selectBaseOnly (.OR Op0 Op1)
    | none => selectBaseOnly (.OR Op0 Op1)
  | Addr =>
    match Addr.dynCastConstantSDNode with
    | some _ =>
      -- Loading from a constant address.
      match isImmSExt20Node Addr with
      | some Imm => some (getRegister 0, getTargetConstant Imm)
      | none => selectBaseOnly Addr
    | none => selectBaseOnly Addr

/-- The test guarding the call `MatchAddressBase(Addr, AM)` at the head of
`SelectAddrRRI12` and `SelectAddrRRI20`: `Addr` does not have one use, its
opcode is neither `Constant` nor `FrameIndex`, and the loop over its uses
meets a `CopyToReg`. It is the value of `Done` after the loop. -/
def liveOutUse (dag : SelectionDAG) (Addr : SDValue) : Bool :=
  !hasOneUse dag Addr &&
    (Addr.getOpcode != .Constant && Addr.getOpcode != .FrameIndex) &&
    (dag.uses Addr).any (fun UI => UI == .CopyToReg)

/-- The lines before `getAddressOperands` in `SelectAddrRRI12` and
`SelectAddrRRI20`: a null register base and a null index become
`CurDAG->getRegister(0, VT)`. -/
def fillEmptySlots (AM : SystemZRRIAddressMode) : SystemZRRIAddressMode :=
  let AM :=
    if AM.BaseType = .RegBase ∧ AM.BaseReg.isNone then
      { AM with BaseReg := some (getRegister 0) }
    else AM
  if AM.IndexReg.isNone then { AM with IndexReg := some (getRegister 0) }
  else AM

/-- `SystemZDAGToDAGISel::SelectAddrRRI12`: `none` when the source returns
false, `some (Base, Disp, Index)` when it returns true. -/
def SelectAddrRRI12 (dag : SelectionDAG) (Addr : SDValue) :
    Option (Option SDValue × SDValue × Option SDValue) :=
  let AM20 := SystemZRRIAddressMode.fresh
  let AM12 := SystemZRRIAddressMode.fresh
  let Done : Bool := liveOutUse dag Addr
  let AM12 := if Done then (MatchAddressBase Addr AM12).2 else AM12
  let r12 := if Done then (false, AM12) else MatchAddress dag Addr AM12 true 0
  if !Done && r12.1 then none
  else
    let AM12 := r12.2
    -- Check, whether we can match stuff using 20-bit displacements
    let dag12 := if Done then dag else dagAfterMatch dag Addr SystemZRRIAddressMode.fresh true 0
    let r20 := if Done then (true, AM20) else MatchAddress dag12 Addr AM20 false 0
    if !Done && !r20.1 && (AM12.Disp == 0 && r20.2.Disp != 0) then none
    else
      let AM12 := fillEmptySlots AM12
      some (getAddressOperands AM12)

/-- `SystemZDAGToDAGISel::SelectAddrRRI20`: `none` when the source returns
false, `some (Base, Disp, Index)` when it returns true. -/
def SelectAddrRRI20 (dag : SelectionDAG) (Addr : SDValue) :
    Option (Option SDValue × SDValue × Option SDValue) :=
  let AM := SystemZRRIAddressMode.fresh
  let Done : Bool := liveOutUse dag Addr
  let AM := if Done then (MatchAddressBase Addr AM).2 else AM
  let r := if Done then (false, AM) else MatchAddress dag Addr AM false 0
  if !Done && r.1 then none
  else
    let AM := r.2
    let AM := fillEmptySlots AM
    some (getAddressOperands AM)

/-- `SystemZDAGToDAGISel::SelectLAAddr`: `none` when the source returns false,
`some (Base, Disp, Index)` when it returns true. -/
def SelectLAAddr (dag : SelectionDAG) (Addr : SDValue) :
    Option (Option SDValue × SDValue × Option SDValue) :=
  let r := MatchAddress dag Addr SystemZRRIAddressMode.fresh false 0
  if r.1 then none
  else
    let AM := r.2
    let step1 : Nat × SystemZRRIAddressMode :=
      if AM.BaseType = .RegBase then
        if AM.BaseReg.isSome then (1, AM)
        else (0, { AM with BaseReg := some (getRegister 0) })
      else if AM.BaseType = .FrameIndexBase then (4, AM)
      else (0, AM)
    let step2 : Nat × SystemZRRIAddressMode :=
      if step1.2.IndexReg.isSome then (step1.1 + 1, step1.2)
      else (step1.1, { step1.2 with IndexReg := some (getRegister 0) })
    let AM := step2.2
    let Complexity :=
      if AM.Disp ≠ 0 ∧ (AM.BaseReg.isSome ∨ AM.IndexReg.isSome) then step2.1 + 1
      else step2.1
    if Complexity > 2 then some (getAddressOperands AM) else none

/-! ### Vocabulary of the statements -/

/-- The base slot is empty: register base kind with no register. -/
def SystemZRRIAddressMode.baseEmpty (AM : SystemZRRIAddressMode) : Prop :=
  AM.BaseType = .RegBase ∧ AM.BaseReg = none

/-- The index slot is empty. -/
def SystemZRRIAddressMode.indexEmpty (AM : SystemZRRIAddressMode) : Prop :=
  AM.IndexReg = none

instance (AM : SystemZRRIAddressMode) : Decidable AM.baseEmpty := by
  unfold SystemZRRIAddressMode.baseEmpty; infer_instance

instance (AM : SystemZRRIAddressMode) : Decidable AM.indexEmpty := by
  unfold SystemZRRIAddressMode.indexEmpty; infer_instance

/-- The displacement field of a policy: 0..4095 for the 12-bit unsigned
policy, -524288..524287 for the 20-bit signed one. -/
def dispFits (is12Bit : Bool) (d : Int) : Prop :=
  if is12Bit then 0 ≤ d ∧ d ≤ 4095 else -524288 ≤ d ∧ d ≤ 524287

instance (is12Bit : Bool) (d : Int) : Decidable (dispFits is12Bit d) := by
  unfold dispFits; infer_instance

/-! ### Values denoted by nodes and accumulators -/

/-- An assignment of 64-bit values to what an address tree leaves open: the
nodes the matcher does not look into, the frame slots, the registers. -/
structure Valuation where
  leaf : Nat → Int
  frame : Int → Int
  reg : Nat → Int

/-- Reduction modulo 2^64. -/
def word (x : Int) : Int := x % 18446744073709551616

/-- The 64-bit value of a node under a valuation: constants, additions and
subtractions modulo 2^64, `OR` bitwise. -/
def SDValue.eval (σ : Valuation) : SDValue → Int
  | .Constant val => word val
  | .FrameIndex idx => word (σ.frame idx)
  | .SUB a b => word (a.eval σ - b.eval σ)
  | .ADD a b => word (a.eval σ + b.eval σ)
  | .OR a b => Int.ofNat ((a.eval σ).toNat ||| (b.eval σ).toNat)
  | .Register reg => word (σ.reg reg)
  | .TargetFrameIndex idx => word (σ.frame idx)
  | .TargetConstant val => word val
  | .Other id => word (σ.leaf id)

/-- The value of the base slot, an empty slot counting as 0. -/
def SystemZRRIAddressMode.baseValue (σ : Valuation) (AM : SystemZRRIAddressMode) : Int :=
  match AM.BaseType with
  | .RegBase =>
    match AM.BaseReg with
    | some b => b.eval σ
    | none => 0
  | .FrameIndexBase => word (σ.frame AM.BaseFrameIndex)

/-- The value of the index slot, an empty slot counting as 0. -/
def SystemZRRIAddressMode.indexValue (σ : Valuation) (AM : SystemZRRIAddressMode) : Int :=
  match AM.IndexReg with
  | some i => i.eval σ
  | none => 0

/-- The address an accumulator denotes: base value + index value +
displacement, modulo 2^64. -/
def SystemZRRIAddressMode.denote (σ : Valuation) (AM : SystemZRRIAddressMode) : Int :=
  word (AM.baseValue σ + AM.indexValue σ + AM.Disp)

/-- The complexity score in the words of the specification: 1 for a register
base, 4 for a frame-slot base, 1 for an index, 1 for a nonzero displacement
next to a base or an index. It is compared with what `SelectLAAddr`
computes. -/
def complexityScoreSpec (AM : SystemZRRIAddressMode) : Nat :=
  (if AM.BaseType = .RegBase ∧ AM.BaseReg.isSome then 1 else 0) +
  (if AM.BaseType = .FrameIndexBase then 4 else 0) +
  (if AM.IndexReg.isSome then 1 else 0) +
  (if AM.Disp ≠ 0 ∧
      ((AM.BaseType = .RegBase ∧ AM.BaseReg.isSome) ∨ AM.BaseType = .FrameIndexBase ∨
        AM.IndexReg.isSome) then 1 else 0)

/-! ### Sample graphs and accumulators -/

/-- A graph in which every node has a single user and the bit oracle proves
nothing. -/
def singleUseDAG : SelectionDAG :=
  { uses := fun _ => [Opcode.Other], MaskedValueIsZero := fun _ _ => false,
    KnownZero := fun _ => 0, usesAfterNeg := addNegUsers }

/-- A graph in which every node has two users, a `SUB` and some other node,
and the bit oracle proves every requested bit clear. -/
def multiUseDAG : SelectionDAG :=
  { uses := fun _ => [Opcode.SUB, Opcode.Other], MaskedValueIsZero := fun _ _ => true,
    KnownZero := fun _ => 0, usesAfterNeg := addNegUsers }

/-- A valuation: node `Other id` has value `1000 * id`, frame slot `i` sits at
`65536 + 8 * i`, register `r` holds `r`. -/
def sampleValuation : Valuation :=
  { leaf := fun id => 1000 * id, frame := fun i => 65536 + 8 * i, reg := fun r => r }

/-- A graph in which every node is live out: it has a `CopyToReg` user next to
another user. -/
def liveOutDAG : SelectionDAG :=
  { uses := fun _ => [Opcode.CopyToReg, Opcode.Other], MaskedValueIsZero := fun _ _ => false,
    KnownZero := fun _ => 0, usesAfterNeg := addNegUsers }

/-- A graph in which the three low bits of every node are known zero (every
node is a multiple of 8) and every node has a single user. -/
def alignedDAG : SelectionDAG :=
  { uses := fun _ => [Opcode.Other], MaskedValueIsZero := fun _ m => decide (0 ≤ m ∧ m < 8),
    KnownZero := fun _ => 7, usesAfterNeg := addNegUsers }

/-- An accumulator whose base and index slots are both taken. -/
def fullAM : SystemZRRIAddressMode :=
  { BaseType := .RegBase, BaseReg := some (.Other 10), BaseFrameIndex := 0,
    IndexReg := some (.Other 11), Disp := 8 }

/-- An accumulator with a frame-slot base and a free index slot. -/
def frameAM : SystemZRRIAddressMode :=
  { BaseType := .FrameIndexBase, BaseReg := none, BaseFrameIndex := 3,
    IndexReg := none, Disp := 16 }

/-- The DAG `d'` offers the services of `d`: the same bit oracles and the
same rule for the use lists; the use lists themselves may differ. -/
def sameServices (d d' : SelectionDAG) : Prop :=
  d'.MaskedValueIsZero = d.MaskedValueIsZero ∧ d'.KnownZero = d.KnownZero ∧
    d'.usesAfterNeg = d.usesAfterNeg

/-- The firing condition of the subtraction rewrite in the words of the
statement: matching `A` from the entry accumulator succeeds, leaves the index
slot empty, and leaves a base that is a frame slot or a register node that
does not have exactly one use, in the DAG as matching `A` left it. -/
def subRewriteFires (dag : SelectionDAG) (A : SDValue) (AM : SystemZRRIAddressMode)
    (is12Bit : Bool) (Depth : Nat) : Prop :=
  (MatchAddress dag A AM is12Bit (Depth + 1)).1 = false ∧
  (MatchAddress dag A AM is12Bit (Depth + 1)).2.IndexReg = none ∧
  ((MatchAddress dag A AM is12Bit (Depth + 1)).2.BaseType = .FrameIndexBase ∨
    ((MatchAddress dag A AM is12Bit (Depth + 1)).2.BaseType = .RegBase ∧
      ∃ b, (MatchAddress dag A AM is12Bit (Depth + 1)).2.BaseReg = some b ∧
        hasOneUse (dagAfterMatch dag A AM is12Bit (Depth + 1)) b = false))

/-- The slots taken in `AM` hold the same in `R`: an occupied base slot
(frame-slot base, or non-null register base) keeps base kind, register and
frame index; an occupied index slot keeps its node. -/
def slotsKept (AM R : SystemZRRIAddressMode) : Prop :=
  ((AM.BaseType = .FrameIndexBase ∨ AM.BaseReg ≠ none) →
    R.BaseType = AM.BaseType ∧ R.BaseReg = AM.BaseReg ∧
      R.BaseFrameIndex = AM.BaseFrameIndex) ∧
  (AM.IndexReg ≠ none → R.IndexReg = AM.IndexReg)

/-- The expression contains no `OR` node. -/
def SDValue.orFree : SDValue → Bool
  | .OR _ _ => false
  | .SUB a b => a.orFree && b.orFree
  | .ADD a b => a.orFree && b.orFree
  | _ => true

/-- `MatchAddressDAG` with a budget of nested calls: each activation takes
one unit of `fuel` and hands the rest to the calls it makes, `none` standing
for an exhausted budget. The body is that of `MatchAddressDAG`; only the calls
the source makes are made (the second call of a pairing only after the first
succeeded, the second pairing only after the first failed). -/
def MatchAddressFuelDAG :
    Nat → SelectionDAG → SDValue → SystemZRRIAddressMode → Bool → Nat →
      Option ((Bool × SystemZRRIAddressMode) × SelectionDAG)
  | 0, _, _, _, _, _ => none
  | fuel + 1, dag, N, AM, is12Bit, Depth =>
    -- Limit recursion.
    if Depth > 5 then some (MatchAddressBase N AM, dag)
    else
      match N with
      | .Constant val =>
        let Val := getSExtValue val
        let Match := if is12Bit then isImmZExt12 (toInt64 (AM.Disp + Val))
                     else isImmSExt20 (toInt64 (AM.Disp + Val))
        match Match with
        | some Imm => some ((false, { AM with Disp := Imm }), dag)
        | none => some (MatchAddressBase (.Constant val) AM, dag)
      | .FrameIndex idx =>
        if AM.BaseType = .RegBase ∧ AM.BaseReg.isNone then
          some ((false, { AM with BaseType := .FrameIndexBase, BaseFrameIndex := idx }), dag)
        else some (MatchAddressBase (.FrameIndex idx) AM, dag)
      | .SUB A B =>
        let Backup := AM
        match MatchAddressFuelDAG fuel dag A AM is12Bit (Depth + 1) with
        | none => none
        | some r =>
          if r.1.1 then some (MatchAddressBase (.SUB A B) Backup, r.2)
          else if r.1.2.IndexReg.isSome then some (MatchAddressBase (.SUB A B) Backup, r.2)
          else if r.1.2.BaseType = .RegBase ∧
              (r.1.2.BaseReg.isNone ∨ r.1.2.BaseReg.any (hasOneUse r.2)) then
            some (MatchAddressBase (.SUB A B) Backup, r.2)
          else
            let RHS := B
            let Neg := r.2.getNeg RHS
            some ((false, { r.1.2 with IndexReg := some Neg.1 }), Neg.2)
      | .ADD A B =>
        let Backup := AM
        let first : Option (Option SystemZRRIAddressMode × SelectionDAG) :=
          match MatchAddressFuelDAG fuel dag A AM is12Bit (Depth + 1) with
          | none => none
          | some r1 =>
            if r1.1.1 then some (none, r1.2)
            else
              match MatchAddressFuelDAG fuel r1.2 B r1.1.2 is12Bit (Depth + 1) with
              | none => none
              | some r2 => some (if r2.1.1 then (none, r2.2) else (some r2.1.2, r2.2))
        match first with
        | none => none
        | some (some AM1, d1) => some ((false, AM1), d1)
        | some (none, d1) =>
          let second : Option (Option SystemZRRIAddressMode × SelectionDAG) :=
            match MatchAddressFuelDAG fuel d1 B Backup is12Bit (Depth + 1) with
            | none => none
            | some s1 =>
              if s1.1.1 then some (none, s1.2)
              else
                match MatchAddressFuelDAG fuel s1.2 A s1.1.2 is12Bit (Depth + 1) with
                | none => none
                | some s2 => some (if s2.1.1 then (none, s2.2) else (some s2.1.2, s2.2))
          match second with
          | none => none
          | some (some AM2, d2) => some ((false, AM2), d2)
          | some (none, d2) =>
            if Backup.BaseType = .RegBase ∧ Backup.BaseReg.isNone ∧
                Backup.IndexReg.isNone then
              some ((false, { Backup with BaseReg := some A, IndexReg := some B }), d2)
            else some (MatchAddressBase (.ADD A B) Backup, d2)
      | .OR L R =>
        match R.dynCastConstantSDNode with
        | some c =>
          let Backup := AM
          let Offset := getSExtValue c
          let MatchOffset := if is12Bit then isImmZExt12 (toInt64 (AM.Disp + Offset))
                             else isImmSExt20 (toInt64 (AM.Disp + Offset))
          match MatchOffset with
          | some Imm =>
            match MatchAddressFuelDAG fuel dag L AM is12Bit (Depth + 1) with
            | none => none
            | some r =>
              if !r.1.1 && r.2.MaskedValueIsZero L c then
                some ((false, { r.1.2 with Disp := Imm }), r.2)
              else some (MatchAddressBase (.OR L R) Backup, r.2)
          | none => some (MatchAddressBase (.OR L R) Backup, dag)
        | none => some (MatchAddressBase (.OR L R) AM, dag)
      | N => some (MatchAddressBase N AM, dag)

/-- `MatchAddress` with a budget of nested calls: the flag and the accumulator
of `MatchAddressFuelDAG`, `none` standing for an exhausted budget. -/
def MatchAddressFuel (dag : SelectionDAG) (fuel : Nat) (N : SDValue)
    (AM : SystemZRRIAddressMode) (is12Bit : Bool) (Depth : Nat) :
    Option (Bool × SystemZRRIAddressMode) :=
  (MatchAddressFuelDAG fuel dag N AM is12Bit Depth).map Prod.fst

/-- Sample address `(5000 + (2 + (3 + (4 + (0 - x3))))) + (FI7 - x2)`: matching
it rewrites `FI7 - x2`, which gives the constant 0 a second user. -/
def nestedSubAddr : SDValue :=
  .ADD
    (.ADD (.Constant 5000)
      (.ADD (.Constant 2) (.ADD (.Constant 3) (.ADD (.Constant 4)
        (.SUB (.Constant 0) (.Other 3))))))
    (.SUB (.FrameIndex 7) (.Other 2))

/-- A left-deep chain of `n` nested additions:
`(((x0 + x1) + x2) + ...) + xn`. -/
def addChain : Nat → SDValue
  | 0 => .Other 0
  | n + 1 => .ADD (addChain n) (.Other (n + 1))


/-! ### Lemmas on the matcher -/

theorem MatchAddressBase_fail_eq (N : SDValue) (AM : SystemZRRIAddressMode)
    (h : (MatchAddressBase N AM).1 = true) : (MatchAddressBase N AM).2 = AM := by
  unfold MatchAddressBase at h ⊢
  split_ifs at h ⊢
  all_goals simp_all

theorem MatchAddressBase_Disp (N : SDValue) (AM : SystemZRRIAddressMode) :
    (MatchAddressBase N AM).2.Disp = AM.Disp := by
  unfold MatchAddressBase
  split_ifs <;> rfl

/-- Beyond the recursion limit the matcher is the base-only fallback and
leaves the DAG alone. -/
theorem MatchAddressDAG_deep (dag : SelectionDAG) (N : SDValue)
    (AM : SystemZRRIAddressMode) (is12Bit : Bool) (Depth : Nat) (hD : Depth > 5) :
    MatchAddressDAG dag N AM is12Bit Depth = (MatchAddressBase N AM, dag) := by
  unfold MatchAddressDAG
  rw [if_pos hD]

/-- Beyond the recursion limit the matcher is the base-only fallback. -/
theorem MatchAddress_deep (dag : SelectionDAG) (N : SDValue)
    (AM : SystemZRRIAddressMode) (is12Bit : Bool) (Depth : Nat) (hD : Depth > 5) :
    MatchAddress dag N AM is12Bit Depth = MatchAddressBase N AM := by
  rw [MatchAddress, MatchAddressDAG_deep dag N AM is12Bit Depth hD]

theorem MatchAddressDAG_Constant (dag : SelectionDAG) (val : Int)
    (AM : SystemZRRIAddressMode) (is12Bit : Bool) (Depth : Nat) (hD : ¬ Depth > 5) :
    MatchAddressDAG dag (.Constant val) AM is12Bit Depth =
      ((match (if is12Bit then isImmZExt12 (toInt64 (AM.Disp + getSExtValue val))
               else isImmSExt20 (toInt64 (AM.Disp + getSExtValue val))) with
        | some Imm => (false, { AM with Disp := Imm })
        | none => MatchAddressBase (.Constant val) AM), dag) := by
  rw [MatchAddressDAG, if_neg hD]
  simp only
  split <;> rfl

theorem MatchAddress_Constant (dag : SelectionDAG) (val : Int)
    (AM : SystemZRRIAddressMode) (is12Bit : Bool) (Depth : Nat) (hD : ¬ Depth > 5) :
    MatchAddress dag (.Constant val) AM is12Bit Depth =
      match (if is12Bit then isImmZExt12 (toInt64 (AM.Disp + getSExtValue val))
             else isImmSExt20 (toInt64 (AM.Disp + getSExtValue val))) with
      | some Imm => (false, { AM with Disp := Imm })
      | none => MatchAddressBase (.Constant val) AM := by
  rw [MatchAddress, MatchAddressDAG_Constant dag val AM is12Bit Depth hD]

theorem MatchAddressDAG_FrameIndex (dag : SelectionDAG) (idx : Int)
    (AM : SystemZRRIAddressMode) (is12Bit : Bool) (Depth : Nat) (hD : ¬ Depth > 5) :
    MatchAddressDAG dag (.FrameIndex idx) AM is12Bit Depth =
      ((if AM.BaseType = .RegBase ∧ AM.BaseReg.isNone then
          (false, { AM with BaseType := .FrameIndexBase, BaseFrameIndex := idx })
        else MatchAddressBase (.FrameIndex idx) AM), dag) := by
  rw [MatchAddressDAG, if_neg hD]
  split_ifs <;> rfl

theorem MatchAddress_FrameIndex (dag : SelectionDAG) (idx : Int)
    (AM : SystemZRRIAddressMode) (is12Bit : Bool) (Depth : Nat) (hD : ¬ Depth > 5) :
    MatchAddress dag (.FrameIndex idx) AM is12Bit Depth =
      if AM.BaseType = .RegBase ∧ AM.BaseReg.isNone then
        (false, { AM with BaseType := .FrameIndexBase, BaseFrameIndex := idx })
      else MatchAddressBase (.FrameIndex idx) AM := by
  rw [MatchAddress, MatchAddressDAG_FrameIndex dag idx AM is12Bit Depth hD]

/-- The subtraction case: the three tests read the accumulator and the DAG
that matching `A` left; the rewrite leaves the DAG with `0 - B` created. -/
theorem MatchAddressDAG_SUB (dag : SelectionDAG) (A B : SDValue)
    (AM : SystemZRRIAddressMode) (is12Bit : Bool) (Depth : Nat) (hD : ¬ Depth > 5) :
    MatchAddressDAG dag (.SUB A B) AM is12Bit Depth =
      if (MatchAddress dag A AM is12Bit (Depth + 1)).1 then
        (MatchAddressBase (.SUB A B) AM, dagAfterMatch dag A AM is12Bit (Depth + 1))
      else if (MatchAddress dag A AM is12Bit (Depth + 1)).2.IndexReg.isSome then
        (MatchAddressBase (.SUB A B) AM, dagAfterMatch dag A AM is12Bit (Depth + 1))
      else if (MatchAddress dag A AM is12Bit (Depth + 1)).2.BaseType = .RegBase ∧
          ((MatchAddress dag A AM is12Bit (Depth + 1)).2.BaseReg.isNone ∨
            (MatchAddress dag A AM is12Bit (Depth + 1)).2.BaseReg.any
              (hasOneUse (dagAfterMatch dag A AM is12Bit (Depth + 1)))) then
        (MatchAddressBase (.SUB A B) AM, dagAfterMatch dag A AM is12Bit (Depth + 1))
      else
        ((false, { (MatchAddress dag A AM is12Bit (Depth + 1)).2 with
                   IndexReg := some (.SUB (getConstant 0) B) }),
         ((dagAfterMatch dag A AM is12Bit (Depth + 1)).getNeg B).2) := by
  rw [MatchAddressDAG, if_neg hD]
  rfl

theorem MatchAddress_SUB (dag : SelectionDAG) (A B : SDValue)
    (AM : SystemZRRIAddressMode) (is12Bit : Bool) (Depth : Nat) (hD : ¬ Depth > 5) :
    MatchAddress dag (.SUB A B) AM is12Bit Depth =
      if (MatchAddress dag A AM is12Bit (Depth + 1)).1 then
        MatchAddressBase (.SUB A B) AM
      else if (MatchAddress dag A AM is12Bit (Depth + 1)).2.IndexReg.isSome then
        MatchAddressBase (.SUB A B) AM
      else if (MatchAddress dag A AM is12Bit (Depth + 1)).2.BaseType = .RegBase ∧
          ((MatchAddress dag A AM is12Bit (Depth + 1)).2.BaseReg.isNone ∨
            (MatchAddress dag A AM is12Bit (Depth + 1)).2.BaseReg.any
              (hasOneUse (dagAfterMatch dag A AM is12Bit (Depth + 1)))) then
        MatchAddressBase (.SUB A B) AM
      else
        (false, { (MatchAddress dag A AM is12Bit (Depth + 1)).2 with
                  IndexReg := some (.SUB (getConstant 0) B) }) := by
  rw [MatchAddress, MatchAddressDAG_SUB dag A B AM is12Bit Depth hD]
  split_ifs <;> rfl

/-- The addition case: the second pairing runs on the DAG the first left. -/
theorem MatchAddressDAG_ADD (dag : SelectionDAG) (A B : SDValue)
    (AM : SystemZRRIAddressMode) (is12Bit : Bool) (Depth : Nat) (hD : ¬ Depth > 5) :
    MatchAddressDAG dag (.ADD A B) AM is12Bit Depth =
      if (MatchAddress dag A AM is12Bit (Depth + 1)).1 = false ∧
          (MatchAddress (dagAfterMatch dag A AM is12Bit (Depth + 1)) B
            (MatchAddress dag A AM is12Bit (Depth + 1)).2 is12Bit (Depth + 1)).1 = false then
        ((false, (MatchAddress (dagAfterMatch dag A AM is12Bit (Depth + 1)) B
            (MatchAddress dag A AM is12Bit (Depth + 1)).2 is12Bit (Depth + 1)).2),
          dagAfterPair dag A B AM is12Bit (Depth + 1))
      else if (MatchAddress (dagAfterPair dag A B AM is12Bit (Depth + 1)) B AM
            is12Bit (Depth + 1)).1 = false ∧
          (MatchAddress (dagAfterMatch (dagAfterPair dag A B AM is12Bit (Depth + 1)) B AM
              is12Bit (Depth + 1)) A
            (MatchAddress (dagAfterPair dag A B AM is12Bit (Depth + 1)) B AM
              is12Bit (Depth + 1)).2 is12Bit (Depth + 1)).1 = false then
        ((false, (MatchAddress (dagAfterMatch (dagAfterPair dag A B AM is12Bit (Depth + 1)) B AM
              is12Bit (Depth + 1)) A
            (MatchAddress (dagAfterPair dag A B AM is12Bit (Depth + 1)) B AM
              is12Bit (Depth + 1)).2 is12Bit (Depth + 1)).2),
          dagAfterPair (dagAfterPair dag A B AM is12Bit (Depth + 1)) B A AM is12Bit (Depth + 1))
      else if AM.BaseType = .RegBase ∧ AM.BaseReg.isNone ∧ AM.IndexReg.isNone then
        ((false, { AM with BaseReg := some A, IndexReg := some B }),
          dagAfterPair (dagAfterPair dag A B AM is12Bit (Depth + 1)) B A AM is12Bit (Depth + 1))
      else
        (MatchAddressBase (.ADD A B) AM,
          dagAfterPair (dagAfterPair dag A B AM is12Bit (Depth + 1)) B A AM is12Bit (Depth + 1)) := by
  rw [MatchAddressDAG, if_neg hD]
  simp only [dagAfterPair, MatchAddress, dagAfterMatch]
  split_ifs <;> simp_all

theorem MatchAddress_ADD (dag : SelectionDAG) (A B : SDValue)
    (AM : SystemZRRIAddressMode) (is12Bit : Bool) (Depth : Nat) (hD : ¬ Depth > 5) :
    MatchAddress dag (.ADD A B) AM is12Bit Depth =
      if (MatchAddress dag A AM is12Bit (Depth + 1)).1 = false ∧
          (MatchAddress (dagAfterMatch dag A AM is12Bit (Depth + 1)) B
            (MatchAddress dag A AM is12Bit (Depth + 1)).2 is12Bit (Depth + 1)).1 = false then
        (false, (MatchAddress (dagAfterMatch dag A AM is12Bit (Depth + 1)) B
            (MatchAddress dag A AM is12Bit (Depth + 1)).2 is12Bit (Depth + 1)).2)
      else if (MatchAddress (dagAfterPair dag A B AM is12Bit (Depth + 1)) B AM
            is12Bit (Depth + 1)).1 = false ∧
          (MatchAddress (dagAfterMatch (dagAfterPair dag A B AM is12Bit (Depth + 1)) B AM
              is12Bit (Depth + 1)) A
            (MatchAddress (dagAfterPair dag A B AM is12Bit (Depth + 1)) B AM
              is12Bit (Depth + 1)).2 is12Bit (Depth + 1)).1 = false then
        (false, (MatchAddress (dagAfterMatch (dagAfterPair dag A B AM is12Bit (Depth + 1)) B AM
              is12Bit (Depth + 1)) A
            (MatchAddress (dagAfterPair dag A B AM is12Bit (Depth + 1)) B AM
              is12Bit (Depth + 1)).2 is12Bit (Depth + 1)).2)
      else if AM.BaseType = .RegBase ∧ AM.BaseReg.isNone ∧ AM.IndexReg.isNone then
        (false, { AM with BaseReg := some A, IndexReg := some B })
      else MatchAddressBase (.ADD A B) AM := by
  rw [MatchAddress, MatchAddressDAG_ADD dag A B AM is12Bit Depth hD]
  split_ifs <;> rfl

theorem MatchAddressDAG_OR_Constant (dag : SelectionDAG) (L R : SDValue) (c : Int)
    (AM : SystemZRRIAddressMode) (is12Bit : Bool) (Depth : Nat) (hD : ¬ Depth > 5)
    (hR : R.dynCastConstantSDNode = some c) :
    MatchAddressDAG dag (.OR L R) AM is12Bit Depth =
      match (if is12Bit then isImmZExt12 (toInt64 (AM.Disp + getSExtValue c))
             else isImmSExt20 (toInt64 (AM.Disp + getSExtValue c))) with
      | some Imm =>
        if (MatchAddress dag L AM is12Bit (Depth + 1)).1 = false ∧
            (dagAfterMatch dag L AM is12Bit (Depth + 1)).MaskedValueIsZero L c = true then
          ((false, { (MatchAddress dag L AM is12Bit (Depth + 1)).2 with Disp := Imm }),
            dagAfterMatch dag L AM is12Bit (Depth + 1))
        else (MatchAddressBase (.OR L R) AM, dagAfterMatch dag L AM is12Bit (Depth + 1))
      | none => (MatchAddressBase (.OR L R) AM, dag) := by
  rw [MatchAddressDAG, if_neg hD]
  simp only [hR, MatchAddress, dagAfterMatch]
  split <;> simp

theorem MatchAddressDAG_default (dag : SelectionDAG) (N : SDValue)
    (AM : SystemZRRIAddressMode) (is12Bit : Bool) (Depth : Nat)
    (hN : N.isDefaultCase = true) :
    MatchAddressDAG dag N AM is12Bit Depth = (MatchAddressBase N AM, dag) := by
  by_cases hD : Depth > 5
  · exact MatchAddressDAG_deep dag N AM is12Bit Depth hD
  · cases N with
    | OR L R =>
      rw [MatchAddressDAG, if_neg hD]
      simp only [SDValue.isDefaultCase, Option.isNone_iff_eq_none] at hN
      simp only [hN]
    | _ => simp_all [SDValue.isDefaultCase, MatchAddressDAG]

theorem MatchAddress_default (dag : SelectionDAG) (N : SDValue)
    (AM : SystemZRRIAddressMode) (is12Bit : Bool) (Depth : Nat)
    (hN : N.isDefaultCase = true) :
    MatchAddress dag N AM is12Bit Depth = MatchAddressBase N AM := by
  rw [MatchAddress, MatchAddressDAG_default dag N AM is12Bit Depth hN]

theorem sameServices_refl (d : SelectionDAG) : sameServices d d := ⟨rfl, rfl, rfl⟩

theorem sameServices_trans (d1 d2 d3 : SelectionDAG) (h1 : sameServices d1 d2)
    (h2 : sameServices d2 d3) : sameServices d1 d3 :=
  ⟨h2.1.trans h1.1, h2.2.1.trans h1.2.1, h2.2.2.trans h1.2.2⟩

theorem sameServices_getNeg (d : SelectionDAG) (RHS : SDValue) :
    sameServices d (d.getNeg RHS).2 := ⟨rfl, rfl, rfl⟩

/-- The matcher changes nothing of the DAG but its use lists. -/
theorem MatchAddressDAG_sameServices (is12Bit : Bool) (N : SDValue) :
    ∀ (dag : SelectionDAG) (AM : SystemZRRIAddressMode) (Depth : Nat),
      sameServices dag (MatchAddressDAG dag N AM is12Bit Depth).2 := by
  induction N with
  | Constant val =>
    intro dag AM Depth
    by_cases hD : Depth > 5
    · rw [MatchAddressDAG_deep dag _ AM is12Bit Depth hD]; exact sameServices_refl dag
    · rw [MatchAddressDAG_Constant dag val AM is12Bit Depth hD]; exact sameServices_refl dag
  | FrameIndex idx =>
    intro dag AM Depth
    by_cases hD : Depth > 5
    · rw [MatchAddressDAG_deep dag _ AM is12Bit Depth hD]; exact sameServices_refl dag
    · rw [MatchAddressDAG_FrameIndex dag idx AM is12Bit Depth hD]; exact sameServices_refl dag
  | SUB A B ihA _ =>
    intro dag AM Depth
    by_cases hD : Depth > 5
    · rw [MatchAddressDAG_deep dag _ AM is12Bit Depth hD]; exact sameServices_refl dag
    · rw [MatchAddressDAG_SUB dag A B AM is12Bit Depth hD]
      have h := ihA dag AM (Depth + 1)
      split_ifs
      · exact h
      · exact h
      · exact h
      · exact sameServices_trans _ _ _ h (sameServices_getNeg _ B)
  | ADD A B ihA ihB =>
    intro dag AM Depth
    by_cases hD : Depth > 5
    · rw [MatchAddressDAG_deep dag _ AM is12Bit Depth hD]; exact sameServices_refl dag
    · have hp : ∀ (d : SelectionDAG) (X Y : SDValue) (AM1 : SystemZRRIAddressMode),
          (∀ (d1 : SelectionDAG) (AM2 : SystemZRRIAddressMode),
            sameServices d1 (MatchAddressDAG d1 X AM2 is12Bit (Depth + 1)).2) →
          (∀ (d1 : SelectionDAG) (AM2 : SystemZRRIAddressMode),
            sameServices d1 (MatchAddressDAG d1 Y AM2 is12Bit (Depth + 1)).2) →
          sameServices d (dagAfterPair d X Y AM1 is12Bit (Depth + 1)) := by
        intro d X Y AM1 hX hY
        unfold dagAfterPair dagAfterMatch
        split_ifs
        · exact hX d AM1
        · exact sameServices_trans _ _ _ (hX d AM1) (hY _ _)
      have hA := fun d1 AM2 => ihA d1 AM2 (Depth + 1)
      have hB := fun d1 AM2 => ihB d1 AM2 (Depth + 1)
      have h1 := hp dag A B AM hA hB
      have h2 := sameServices_trans _ _ _ h1
        (hp (dagAfterPair dag A B AM is12Bit (Depth + 1)) B A AM hB hA)
      rw [MatchAddressDAG_ADD dag A B AM is12Bit Depth hD]
      split_ifs
      · exact h1
      · exact h2
      · exact h2
      · exact h2
  | OR L R ihL _ =>
    intro dag AM Depth
    by_cases hD : Depth > 5
    · rw [MatchAddressDAG_deep dag _ AM is12Bit Depth hD]; exact sameServices_refl dag
    · by_cases hN : (SDValue.OR L R).isDefaultCase = true
      · rw [MatchAddressDAG_default dag _ AM is12Bit Depth hN]; exact sameServices_refl dag
      · obtain ⟨c, hR⟩ : ∃ c, R.dynCastConstantSDNode = some c := by
          cases hc : R.dynCastConstantSDNode with
          | none => simp [SDValue.isDefaultCase, hc] at hN
          | some c => exact ⟨c, rfl⟩
        rw [MatchAddressDAG_OR_Constant dag L R c AM is12Bit Depth hD hR]
        split
        · split_ifs
          · exact ihL dag AM (Depth + 1)
          · exact ihL dag AM (Depth + 1)
        · exact sameServices_refl dag
  | _ =>
    intro dag AM Depth
    rw [MatchAddressDAG_default dag _ AM is12Bit Depth (by rfl)]
    exact sameServices_refl dag

theorem dagAfterMatch_sameServices (dag : SelectionDAG) (N : SDValue)
    (AM : SystemZRRIAddressMode) (is12Bit : Bool) (Depth : Nat) :
    sameServices dag (dagAfterMatch dag N AM is12Bit Depth) :=
  MatchAddressDAG_sameServices is12Bit N dag AM Depth

theorem MatchAddress_OR_Constant (dag : SelectionDAG) (L R : SDValue) (c : Int)
    (AM : SystemZRRIAddressMode) (is12Bit : Bool) (Depth : Nat) (hD : ¬ Depth > 5)
    (hR : R.dynCastConstantSDNode = some c) :
    MatchAddress dag (.OR L R) AM is12Bit Depth =
      match (if is12Bit then isImmZExt12 (toInt64 (AM.Disp + getSExtValue c))
             else isImmSExt20 (toInt64 (AM.Disp + getSExtValue c))) with
      | some Imm =>
        if (MatchAddress dag L AM is12Bit (Depth + 1)).1 = false ∧
            dag.MaskedValueIsZero L c = true then
          (false, { (MatchAddress dag L AM is12Bit (Depth + 1)).2 with Disp := Imm })
        else MatchAddressBase (.OR L R) AM
      | none => MatchAddressBase (.OR L R) AM := by
  rw [MatchAddress, MatchAddressDAG_OR_Constant dag L R c AM is12Bit Depth hD hR,
    (dagAfterMatch_sameServices dag L AM is12Bit (Depth + 1)).1]
  split
  · split_ifs <;> rfl
  · rfl

/-- A failing `MatchAddress` is the failing `MatchAddressBase` on the entry
accumulator: every path that does not return false restores `Backup`. -/
theorem MatchAddress_fail_eq_base (dag : SelectionDAG) (N : SDValue)
    (AM : SystemZRRIAddressMode) (is12Bit : Bool) (Depth : Nat)
    (h : (MatchAddress dag N AM is12Bit Depth).1 = true) :
    MatchAddress dag N AM is12Bit Depth = MatchAddressBase N AM := by
  by_cases hD : Depth > 5
  · exact MatchAddress_deep dag N AM is12Bit Depth hD
  · by_cases hN : N.isDefaultCase = true
    · exact MatchAddress_default dag N AM is12Bit Depth hN
    · cases N with
      | Constant val =>
        rw [MatchAddress_Constant dag val AM is12Bit Depth hD] at h ⊢
        generalize (if is12Bit = true then isImmZExt12 (toInt64 (AM.Disp + getSExtValue val))
          else isImmSExt20 (toInt64 (AM.Disp + getSExtValue val))) = m at h ⊢
        cases m <;> simp_all
      | FrameIndex idx =>
        rw [MatchAddress_FrameIndex dag idx AM is12Bit Depth hD] at h ⊢
        split_ifs at h ⊢
        all_goals simp_all
      | SUB A B =>
        rw [MatchAddress_SUB dag A B AM is12Bit Depth hD] at h ⊢
        split_ifs at h ⊢
        all_goals simp_all
      | ADD A B =>
        rw [MatchAddress_ADD dag A B AM is12Bit Depth hD] at h ⊢
        split_ifs at h ⊢
        all_goals simp_all
      | OR L R =>
        obtain ⟨c, hR⟩ : ∃ c, R.dynCastConstantSDNode = some c := by
          cases hc : R.dynCastConstantSDNode with
          | none => simp [SDValue.isDefaultCase, hc] at hN
          | some c => exact ⟨c, rfl⟩
        rw [MatchAddress_OR_Constant dag L R c AM is12Bit Depth hD hR] at h ⊢
        generalize (if is12Bit = true then isImmZExt12 (toInt64 (AM.Disp + getSExtValue c))
          else isImmSExt20 (toInt64 (AM.Disp + getSExtValue c))) = m at h ⊢
        cases m with
        | none => rfl
        | some Imm =>
          simp only at h ⊢
          split_ifs at h ⊢
          all_goals simp_all
      | _ => simp [SDValue.isDefaultCase] at hN

/-- The immediate handed back by the policy's predicate lies in its field. -/
theorem dispFits_of_isImm (is12Bit : Bool) (x Imm : Int)
    (h : (if is12Bit = true then isImmZExt12 x else isImmSExt20 x) = some Imm) :
    dispFits is12Bit Imm ∧ Imm = x := by
  unfold dispFits isImmZExt12 isImmSExt20 at *
  cases is12Bit <;> simp at h ⊢ <;> omega

/-- The matcher keeps the displacement inside the policy's field, on success
and on failure alike. -/
theorem MatchAddress_Disp_fits (dag : SelectionDAG) (is12Bit : Bool) (N : SDValue) :
    ∀ (AM : SystemZRRIAddressMode) (Depth : Nat), dispFits is12Bit AM.Disp →
      dispFits is12Bit (MatchAddress dag N AM is12Bit Depth).2.Disp := by
  induction N generalizing dag with
  | Constant val =>
    intro AM Depth hfit
    by_cases hD : Depth > 5
    · rw [MatchAddress_deep dag _ AM is12Bit Depth hD, MatchAddressBase_Disp]; exact hfit
    · rw [MatchAddress_Constant dag val AM is12Bit Depth hD]
      split
      · next Imm hImm => exact (dispFits_of_isImm is12Bit _ Imm hImm).1
      · rw [MatchAddressBase_Disp]; exact hfit
  | FrameIndex idx =>
    intro AM Depth hfit
    by_cases hD : Depth > 5
    · rw [MatchAddress_deep dag _ AM is12Bit Depth hD, MatchAddressBase_Disp]; exact hfit
    · rw [MatchAddress_FrameIndex dag idx AM is12Bit Depth hD]
      split_ifs
      · exact hfit
      · rw [MatchAddressBase_Disp]; exact hfit
  | SUB A B ihA _ =>
    intro AM Depth hfit
    by_cases hD : Depth > 5
    · rw [MatchAddress_deep dag _ AM is12Bit Depth hD, MatchAddressBase_Disp]; exact hfit
    · rw [MatchAddress_SUB dag A B AM is12Bit Depth hD]
      split_ifs
      · rw [MatchAddressBase_Disp]; exact hfit
      · rw [MatchAddressBase_Disp]; exact hfit
      · rw [MatchAddressBase_Disp]; exact hfit
      · exact ihA _ AM (Depth + 1) hfit
  | ADD A B ihA ihB =>
    intro AM Depth hfit
    by_cases hD : Depth > 5
    · rw [MatchAddress_deep dag _ AM is12Bit Depth hD, MatchAddressBase_Disp]; exact hfit
    · rw [MatchAddress_ADD dag A B AM is12Bit Depth hD]
      split_ifs
      · exact ihB _ _ (Depth + 1) (ihA _ AM (Depth + 1) hfit)
      · exact ihA _ _ (Depth + 1) (ihB _ AM (Depth + 1) hfit)
      · exact hfit
      · rw [MatchAddressBase_Disp]; exact hfit
  | OR L R _ _ =>
    intro AM Depth hfit
    by_cases hD : Depth > 5
    · rw [MatchAddress_deep dag _ AM is12Bit Depth hD, MatchAddressBase_Disp]; exact hfit
    · by_cases hN : (SDValue.OR L R).isDefaultCase = true
      · rw [MatchAddress_default dag _ AM is12Bit Depth hN, MatchAddressBase_Disp]; exact hfit
      · obtain ⟨c, hR⟩ : ∃ c, R.dynCastConstantSDNode = some c := by
          cases hc : R.dynCastConstantSDNode with
          | none => simp [SDValue.isDefaultCase, hc] at hN
          | some c => exact ⟨c, rfl⟩
        rw [MatchAddress_OR_Constant dag L R c AM is12Bit Depth hD hR]
        split
        · next Imm hImm =>
          split_ifs
          · exact (dispFits_of_isImm is12Bit _ Imm hImm).1
          · rw [MatchAddressBase_Disp]; exact hfit
        · rw [MatchAddressBase_Disp]; exact hfit
  | _ =>
    intro AM Depth hfit
    rw [MatchAddress_default dag _ AM is12Bit Depth (by rfl), MatchAddressBase_Disp]
    exact hfit

/-! ### Claims -/

/-- C1. Backtracking integrity: whenever `MatchAddress` reports failure
(returns true), the accumulator after the call equals the accumulator before
the call, in every field. -/
theorem MatchAddress_failure_restores (dag : SelectionDAG) (N : SDValue)
    (AM : SystemZRRIAddressMode) (is12Bit : Bool) (Depth : Nat)
    (h : (MatchAddress dag N AM is12Bit Depth).1 = true) :
    (MatchAddress dag N AM is12Bit Depth).2 = AM ∧
    (MatchAddress dag N AM is12Bit Depth).2.BaseType = AM.BaseType ∧
    (MatchAddress dag N AM is12Bit Depth).2.BaseReg = AM.BaseReg ∧
    (MatchAddress dag N AM is12Bit Depth).2.BaseFrameIndex = AM.BaseFrameIndex ∧
    (MatchAddress dag N AM is12Bit Depth).2.IndexReg = AM.IndexReg ∧
    (MatchAddress dag N AM is12Bit Depth).2.Disp = AM.Disp := by
  have hb := MatchAddress_fail_eq_base dag N AM is12Bit Depth h
  have h2 : (MatchAddress dag N AM is12Bit Depth).2 = AM := by
    rw [hb] at h ⊢
    exact MatchAddressBase_fail_eq N AM h
  rw [h2]
  exact ⟨rfl, rfl, rfl, rfl, rfl, rfl⟩

/-- C2. Displacement fits on success: from an accumulator whose displacement
lies in the policy's field, a successful `MatchAddress` (returns false) leaves
a displacement that lies in that field. -/
theorem MatchAddress_success_disp_fits (dag : SelectionDAG) (N : SDValue)
    (AM : SystemZRRIAddressMode) (is12Bit : Bool) (Depth : Nat)
    (hfit : dispFits is12Bit AM.Disp)
    (_hs : (MatchAddress dag N AM is12Bit Depth).1 = false) :
    dispFits is12Bit (MatchAddress dag N AM is12Bit Depth).2.Disp :=
  MatchAddress_Disp_fits dag is12Bit N AM Depth hfit

/-- Witness of C1: `4 + x` on a full accumulator folds the 4, fails on `x`,
and hands back the entry accumulator. -/
theorem MatchAddress_failure_restores_witness :
    (MatchAddress singleUseDAG (.Constant 4) fullAM true 1).2.Disp = 12 ∧
    (MatchAddress singleUseDAG (.ADD (.Constant 4) (.Other 1)) fullAM true 0).1 = true ∧
    (MatchAddress singleUseDAG (.ADD (.Constant 4) (.Other 1)) fullAM true 0).2 = fullAM :=
  ⟨by decide, by decide,
    (MatchAddress_failure_restores singleUseDAG (.ADD (.Constant 4) (.Other 1))
      fullAM true 0 (by decide)).1⟩

/-- Witness of C2: `FrameIndex 7 + 100` from the fresh accumulator under the
12-bit policy. -/
theorem MatchAddress_success_disp_fits_witness :
    dispFits true SystemZRRIAddressMode.fresh.Disp ∧
    (MatchAddress singleUseDAG (.ADD (.FrameIndex 7) (.Constant 100))
      SystemZRRIAddressMode.fresh true 0).1 = false ∧
    dispFits true (MatchAddress singleUseDAG (.ADD (.FrameIndex 7) (.Constant 100))
      SystemZRRIAddressMode.fresh true 0).2.Disp :=
  ⟨by decide, by decide,
    MatchAddress_success_disp_fits singleUseDAG (.ADD (.FrameIndex 7) (.Constant 100))
      SystemZRRIAddressMode.fresh true 0 (by decide) (by decide)⟩

/-- C3. The displacement-fitting predicates accept exactly their ranges and
never mask: `isImmZExt12 v` returns true iff `0 ≤ v ≤ 4095`, `isImmSExt20 v`
iff `-524288 ≤ v ≤ 524287`, the immediate returned is `v` itself, and the
four boundary values 4095, 4096, -524288, -524289 fall as stated. -/
theorem isImm_exact_range (v : Int) :
    (isImmZExt12 v = some v ↔ 0 ≤ v ∧ v ≤ 4095) ∧
    (isImmZExt12 v = none ↔ ¬ (0 ≤ v ∧ v ≤ 4095)) ∧
    (isImmSExt20 v = some v ↔ -524288 ≤ v ∧ v ≤ 524287) ∧
    (isImmSExt20 v = none ↔ ¬ (-524288 ≤ v ∧ v ≤ 524287)) ∧
    isImmZExt12 4095 = some 4095 ∧ isImmZExt12 4096 = none ∧
    isImmSExt20 (-524288) = some (-524288) ∧ isImmSExt20 (-524289) = none := by
  refine ⟨?_, ?_, ?_, ?_, by decide, by decide, by decide, by decide⟩
  all_goals
    simp only [isImmZExt12, isImmSExt20]
    split_ifs <;> simp <;> omega

/-- C4. Base-only fallback: (a) with an empty base slot `MatchAddressBase`
succeeds and makes `N` the register base, index and displacement untouched;
(b) with the base slot taken (register or frame slot) and the index slot empty
it succeeds and makes `N` the index, base and displacement untouched; (c) with
both slots taken it fails and returns the accumulator as it was. So it fails
iff both slots are taken, and never with an empty base slot. -/
theorem MatchAddressBase_contract (N : SDValue) (AM : SystemZRRIAddressMode) :
    (AM.BaseType = .RegBase ∧ AM.BaseReg = none →
      (MatchAddressBase N AM).1 = false ∧
      (MatchAddressBase N AM).2.BaseType = .RegBase ∧
      (MatchAddressBase N AM).2.BaseReg = some N ∧
      (MatchAddressBase N AM).2.IndexReg = AM.IndexReg ∧
      (MatchAddressBase N AM).2.Disp = AM.Disp) ∧
    ((AM.BaseType = .FrameIndexBase ∨ AM.BaseReg ≠ none) ∧ AM.IndexReg = none →
      (MatchAddressBase N AM).1 = false ∧
      (MatchAddressBase N AM).2.IndexReg = some N ∧
      (MatchAddressBase N AM).2.BaseType = AM.BaseType ∧
      (MatchAddressBase N AM).2.BaseReg = AM.BaseReg ∧
      (MatchAddressBase N AM).2.BaseFrameIndex = AM.BaseFrameIndex ∧
      (MatchAddressBase N AM).2.Disp = AM.Disp) ∧
    ((AM.BaseType = .FrameIndexBase ∨ AM.BaseReg ≠ none) ∧ AM.IndexReg ≠ none →
      MatchAddressBase N AM = (true, AM)) ∧
    ((MatchAddressBase N AM).1 = true ↔
      (AM.BaseType = .FrameIndexBase ∨ AM.BaseReg ≠ none) ∧ AM.IndexReg ≠ none) := by
  obtain ⟨bt, br, bf, ir, d⟩ := AM
  cases bt <;> cases br <;> cases ir <;> simp [MatchAddressBase]

/-- Witness of C4: the three cases on the fresh, the frame-based and the full
accumulator. -/
theorem MatchAddressBase_contract_witness :
    (MatchAddressBase (.Other 1) SystemZRRIAddressMode.fresh).2.BaseReg = some (.Other 1) ∧
    (MatchAddressBase (.Other 1) frameAM).2.IndexReg = some (.Other 1) ∧
    MatchAddressBase (.Other 1) fullAM = (true, fullAM) :=
  ⟨((MatchAddressBase_contract (.Other 1) SystemZRRIAddressMode.fresh).1
      (by decide)).2.2.1,
   ((MatchAddressBase_contract (.Other 1) frameAM).2.1 (by decide)).2.1,
   (MatchAddressBase_contract (.Other 1) fullAM).2.2.1 (by decide)⟩

/-- C5. Soundness of the SUB to negated-index rewrite. When `MatchAddress`
applies the rewrite to `A - B` (matching `A` succeeds, leaves the index free,
and leaves a frame-slot base or a register base that, in the DAG as matching
`A` left it, does not have a single use), the result is the accumulator from
matching `A` with the synthesized `0 - B` as index; its denoted value is the
value denoted after matching `A` plus the value `0 - b` of the synthesized
index, modulo 2^64; hence if matching `A` added exactly `a`, matching `A - B`
adds exactly `a - b`. -/
theorem MatchAddress_SUB_rewrite_sound (dag : SelectionDAG) (σ : Valuation)
    (A B : SDValue) (AM : SystemZRRIAddressMode) (is12Bit : Bool) (Depth : Nat)
    (hD : Depth ≤ 5)
    (hA : (MatchAddress dag A AM is12Bit (Depth + 1)).1 = false)
    (hI : (MatchAddress dag A AM is12Bit (Depth + 1)).2.IndexReg = none)
    (hB : ¬ ((MatchAddress dag A AM is12Bit (Depth + 1)).2.BaseType = .RegBase ∧
        ((MatchAddress dag A AM is12Bit (Depth + 1)).2.BaseReg = none ∨
          (MatchAddress dag A AM is12Bit (Depth + 1)).2.BaseReg.any
            (hasOneUse (dagAfterMatch dag A AM is12Bit (Depth + 1))) = true))) :
    MatchAddress dag (.SUB A B) AM is12Bit Depth =
      (false, { (MatchAddress dag A AM is12Bit (Depth + 1)).2 with
                IndexReg := some (.SUB (.Constant 0) B) }) ∧
    (SDValue.SUB (.Constant 0) B).eval σ = word (0 - B.eval σ) ∧
    (MatchAddress dag (.SUB A B) AM is12Bit Depth).2.denote σ =
      word ((MatchAddress dag A AM is12Bit (Depth + 1)).2.denote σ + word (0 - B.eval σ)) ∧
    ((MatchAddress dag A AM is12Bit (Depth + 1)).2.denote σ = word (AM.denote σ + A.eval σ) →
      (MatchAddress dag (.SUB A B) AM is12Bit Depth).2.denote σ =
        word (AM.denote σ + (SDValue.SUB A B).eval σ)) := by
  have hD5 : ¬ Depth > 5 := by omega
  have hEq : MatchAddress dag (.SUB A B) AM is12Bit Depth =
      (false, { (MatchAddress dag A AM is12Bit (Depth + 1)).2 with
                IndexReg := some (.SUB (.Constant 0) B) }) := by
    rw [MatchAddress_SUB dag A B AM is12Bit Depth hD5]
    have hB2 : ¬ ((MatchAddress dag A AM is12Bit (Depth + 1)).2.BaseType = .RegBase ∧
        ((MatchAddress dag A AM is12Bit (Depth + 1)).2.BaseReg.isNone = true ∨
          (MatchAddress dag A AM is12Bit (Depth + 1)).2.BaseReg.any
            (hasOneUse (dagAfterMatch dag A AM is12Bit (Depth + 1))) = true)) := by
      simpa [Option.isNone_iff_eq_none] using hB
    rw [if_neg (by simp [hA]), if_neg (by simp [hI]), if_neg hB2]
    rfl
  have hNeg : (SDValue.SUB (.Constant 0) B).eval σ = word (0 - B.eval σ) := by
    simp [SDValue.eval, word]
  have hDen : (MatchAddress dag (.SUB A B) AM is12Bit Depth).2.denote σ =
      word ((MatchAddress dag A AM is12Bit (Depth + 1)).2.denote σ + word (0 - B.eval σ)) := by
    rw [hEq]
    simp only [SystemZRRIAddressMode.denote, SystemZRRIAddressMode.baseValue,
      SystemZRRIAddressMode.indexValue, hI, hNeg]
    simp only [word]
    omega
  refine ⟨hEq, hNeg, hDen, ?_⟩
  intro hAdd
  rw [hDen, hAdd]
  simp only [SDValue.eval, word]
  omega

/-- Witness of C5. First `x - y` from the fresh accumulator, `x` having two
uses; with `x = 1000` and `y = 2000` the accumulator denotes `1000 - 2000`
modulo 2^64. Then `0 - x3` at depth 5 on the DAG that the rewrite of
`FrameIndex 7 - x2` left: the constant 0, of a single use before, has the
created negation as a second user, and the rewrite applies. -/
theorem MatchAddress_SUB_rewrite_sound_witness :
    MatchAddress multiUseDAG (.SUB (.Other 1) (.Other 2)) SystemZRRIAddressMode.fresh true 0 =
      (false, { BaseType := .RegBase, BaseReg := some (.Other 1), BaseFrameIndex := 0,
                IndexReg := some (.SUB (.Constant 0) (.Other 2)), Disp := 0 }) ∧
    (MatchAddress multiUseDAG (.SUB (.Other 1) (.Other 2))
        SystemZRRIAddressMode.fresh true 0).2.denote sampleValuation =
      word (SystemZRRIAddressMode.fresh.denote sampleValuation +
        (SDValue.SUB (.Other 1) (.Other 2)).eval sampleValuation) ∧
    (SDValue.SUB (.Other 1) (.Other 2)).eval sampleValuation = 18446744073709550616 ∧
    hasOneUse singleUseDAG (.Constant 0) = true ∧
    hasOneUse (dagAfterMatch singleUseDAG (.SUB (.FrameIndex 7) (.Other 2))
      SystemZRRIAddressMode.fresh true 1) (.Constant 0) = false ∧
    MatchAddress (dagAfterMatch singleUseDAG (.SUB (.FrameIndex 7) (.Other 2))
        SystemZRRIAddressMode.fresh true 1)
        (.SUB (.Constant 0) (.Other 3)) SystemZRRIAddressMode.fresh true 5 =
      (false, { BaseType := .RegBase, BaseReg := some (.Constant 0), BaseFrameIndex := 0,
                IndexReg := some (.SUB (.Constant 0) (.Other 3)), Disp := 0 }) :=
  ⟨(MatchAddress_SUB_rewrite_sound multiUseDAG sampleValuation (.Other 1) (.Other 2)
      SystemZRRIAddressMode.fresh true 0 (by decide) (by decide) (by decide) (by decide)).1,
   (MatchAddress_SUB_rewrite_sound multiUseDAG sampleValuation (.Other 1) (.Other 2)
      SystemZRRIAddressMode.fresh true 0 (by decide) (by decide) (by decide)
      (by decide)).2.2.2 (by decide),
   by decide, by decide, by decide,
   (MatchAddress_SUB_rewrite_sound
      (dagAfterMatch singleUseDAG (.SUB (.FrameIndex 7) (.Other 2))
        SystemZRRIAddressMode.fresh true 1)
      sampleValuation (.Constant 0) (.Other 3)
      SystemZRRIAddressMode.fresh true 5 (by decide) (by decide) (by decide) (by decide)).1⟩

/-- C6. The code at `(x + 8) | 1` with the low bits of the left operand known
clear, fresh accumulator, 12-bit policy: matching the left operand alone gives
base `x` and displacement 8, while matching the `OR` gives displacement 1, not
8 + 1: the displacement folded while matching the left operand is overwritten
by the entry displacement plus the constant. Under `sampleValuation` the node
evaluates to 1009 and the accumulator denotes 1001. -/
theorem MatchAddress_OR_overwrites_disp :
    MatchAddress multiUseDAG (.ADD (.Other 1) (.Constant 8)) SystemZRRIAddressMode.fresh true 1 =
      (false, { BaseType := .RegBase, BaseReg := some (.Other 1), BaseFrameIndex := 0,
                IndexReg := none, Disp := 8 }) ∧
    MatchAddress multiUseDAG (.OR (.ADD (.Other 1) (.Constant 8)) (.Constant 1))
        SystemZRRIAddressMode.fresh true 0 =
      (false, { BaseType := .RegBase, BaseReg := some (.Other 1), BaseFrameIndex := 0,
                IndexReg := none, Disp := 1 }) ∧
    (SDValue.OR (.ADD (.Other 1) (.Constant 8)) (.Constant 1)).eval sampleValuation = 1009 ∧
    (MatchAddress multiUseDAG (.OR (.ADD (.Other 1) (.Constant 8)) (.Constant 1))
        SystemZRRIAddressMode.fresh true 0).2.denote sampleValuation = 1001 := by
  refine ⟨by decide, by decide, by decide, by decide⟩

/-- C7. The OR to ADD rewrite needs the disjointness proof: for `L | C` with
`C` a constant node, when `MaskedValueIsZero(L, C)` does not hold,
`MatchAddress` is exactly `MatchAddressBase` on the whole `OR` node and the
entry accumulator; the displacement is the entry displacement and each slot
holds what it held at entry or the whole `OR` node. -/
theorem MatchAddress_OR_not_disjoint (dag : SelectionDAG) (L R : SDValue) (c : Int)
    (AM : SystemZRRIAddressMode) (is12Bit : Bool) (Depth : Nat)
    (hR : R.dynCastConstantSDNode = some c)
    (h : dag.MaskedValueIsZero L c = false) :
    MatchAddress dag (.OR L R) AM is12Bit Depth = MatchAddressBase (.OR L R) AM ∧
    (MatchAddress dag (.OR L R) AM is12Bit Depth).2.Disp = AM.Disp ∧
    (MatchAddress dag (.OR L R) AM is12Bit Depth).2.BaseType = AM.BaseType ∧
    ((MatchAddress dag (.OR L R) AM is12Bit Depth).2.BaseReg = AM.BaseReg ∨
      (MatchAddress dag (.OR L R) AM is12Bit Depth).2.BaseReg = some (.OR L R)) ∧
    ((MatchAddress dag (.OR L R) AM is12Bit Depth).2.IndexReg = AM.IndexReg ∨
      (MatchAddress dag (.OR L R) AM is12Bit Depth).2.IndexReg = some (.OR L R)) := by
  have hEq : MatchAddress dag (.OR L R) AM is12Bit Depth =
      MatchAddressBase (.OR L R) AM := by
    by_cases hD : Depth > 5
    · exact MatchAddress_deep dag _ AM is12Bit Depth hD
    · rw [MatchAddress_OR_Constant dag L R c AM is12Bit Depth hD hR]
      split
      · rw [if_neg (by simp [h])]
      · rfl
  rw [hEq]
  refine ⟨rfl, MatchAddressBase_Disp _ AM, ?_, ?_, ?_⟩
  all_goals
    obtain ⟨bt, br, bf, ir, d⟩ := AM
    cases bt <;> cases br <;> cases ir <;> simp [MatchAddressBase]

/-- Witness of C7: `(x + 8) | 1` with nothing known about `x + 8`. -/
theorem MatchAddress_OR_not_disjoint_witness :
    MatchAddress singleUseDAG (.OR (.ADD (.Other 1) (.Constant 8)) (.Constant 1))
        SystemZRRIAddressMode.fresh true 0 =
      MatchAddressBase (.OR (.ADD (.Other 1) (.Constant 8)) (.Constant 1))
        SystemZRRIAddressMode.fresh :=
  (MatchAddress_OR_not_disjoint singleUseDAG (.ADD (.Other 1) (.Constant 8)) (.Constant 1) 1
    SystemZRRIAddressMode.fresh true 0 (by decide) (by decide)).1

/-- The matcher never fails on the fresh accumulator. -/
theorem MatchAddress_fresh_succeeds (dag : SelectionDAG) (N : SDValue) (is12Bit : Bool)
    (Depth : Nat) :
    (MatchAddress dag N SystemZRRIAddressMode.fresh is12Bit Depth).1 = false := by
  by_contra hc
  have hc1 : (MatchAddress dag N SystemZRRIAddressMode.fresh is12Bit Depth).1 = true := by
    simpa using hc
  have hb := MatchAddress_fail_eq_base dag N _ is12Bit Depth hc1
  rw [hb] at hc1
  simp [MatchAddressBase, SystemZRRIAddressMode.fresh] at hc1

/-- C8, as stated, fails on `x + 5000` (single use): the 12-bit match succeeds
(base `x`, the constant as index, displacement 0), the 20-bit match succeeds
with displacement 5000, and `SelectAddrRRI12` returns false. -/
theorem SelectAddrRRI12_rejects_after_12bit_success :
    liveOutUse singleUseDAG (.ADD (.Other 1) (.Constant 5000)) = false ∧
    MatchAddress singleUseDAG (.ADD (.Other 1) (.Constant 5000))
        SystemZRRIAddressMode.fresh true 0 =
      (false, { BaseType := .RegBase, BaseReg := some (.Other 1), BaseFrameIndex := 0,
                IndexReg := some (.Constant 5000), Disp := 0 }) ∧
    MatchAddress singleUseDAG (.ADD (.Other 1) (.Constant 5000))
        SystemZRRIAddressMode.fresh false 0 =
      (false, { BaseType := .RegBase, BaseReg := some (.Other 1), BaseFrameIndex := 0,
                IndexReg := none, Disp := 5000 }) ∧
    SelectAddrRRI12 singleUseDAG (.ADD (.Other 1) (.Constant 5000)) = none := by
  refine ⟨by decide, by decide, by decide, by decide⟩

/-- C8, amended. Where the live-out shortcut is not taken, `SelectAddrRRI12`
runs the matcher with the 12-bit policy on a fresh accumulator, and that match
succeeds. It then runs the matcher with the 20-bit policy on a second fresh
accumulator, on the DAG as the 12-bit run left it, and fails exactly when that
match succeeds, the 12-bit displacement is zero and the 20-bit displacement is
nonzero; in every other case it succeeds and emits from the 12-bit
accumulator. -/
theorem SelectAddrRRI12_fallback_rule (dag : SelectionDAG) (Addr : SDValue)
    (hS : liveOutUse dag Addr = false) :
    (MatchAddress dag Addr SystemZRRIAddressMode.fresh true 0).1 = false ∧
    (SelectAddrRRI12 dag Addr = none ↔
      ((MatchAddress (dagAfterMatch dag Addr SystemZRRIAddressMode.fresh true 0) Addr
          SystemZRRIAddressMode.fresh false 0).1 = false ∧
        (MatchAddress dag Addr SystemZRRIAddressMode.fresh true 0).2.Disp = 0 ∧
        (MatchAddress (dagAfterMatch dag Addr SystemZRRIAddressMode.fresh true 0) Addr
          SystemZRRIAddressMode.fresh false 0).2.Disp ≠ 0)) ∧
    (SelectAddrRRI12 dag Addr ≠ none →
      SelectAddrRRI12 dag Addr =
        some (getAddressOperands
          (fillEmptySlots (MatchAddress dag Addr SystemZRRIAddressMode.fresh true 0).2))) := by
  have h12 := MatchAddress_fresh_succeeds dag Addr true 0
  refine ⟨h12, ?_, ?_⟩
  · simp [SelectAddrRRI12, hS, h12]
  · intro h
    simp only [SelectAddrRRI12, hS] at h ⊢
    split_ifs at h ⊢ <;> simp_all

/-- Witness of C8, amended: `x + 100` (single use) is accepted with
displacement 100 from the 12-bit accumulator. -/
theorem SelectAddrRRI12_fallback_rule_witness :
    SelectAddrRRI12 singleUseDAG (.ADD (.Other 1) (.Constant 100)) =
      some (some (.Other 1), .TargetConstant 100, some (.Register 0)) :=
  (SelectAddrRRI12_fallback_rule singleUseDAG (.ADD (.Other 1) (.Constant 100))
    (by decide)).2.2 (by decide)

/-- C9. Cost gate of `SelectLAAddr`: when the 20-bit match succeeds, the
selector succeeds iff the specification's score of the matched accumulator
exceeds 2. A lone register base scores 1 and is rejected; a frame-slot base
with an index and displacement 8 scores 6 and is accepted. -/
theorem SelectLAAddr_cost_gate (dag : SelectionDAG) (Addr : SDValue)
    (hM : (MatchAddress dag Addr SystemZRRIAddressMode.fresh false 0).1 = false) :
    ((SelectLAAddr dag Addr).isSome = true ↔
      complexityScoreSpec (MatchAddress dag Addr SystemZRRIAddressMode.fresh false 0).2 > 2) ∧
    (complexityScoreSpec (MatchAddress dag (.Other 1) SystemZRRIAddressMode.fresh false 0).2 = 1 ∧
      SelectLAAddr dag (.Other 1) = none) ∧
    (complexityScoreSpec (MatchAddress dag (.ADD (.ADD (.FrameIndex 3) (.Other 2)) (.Constant 8))
        SystemZRRIAddressMode.fresh false 0).2 = 6 ∧
      SelectLAAddr dag (.ADD (.ADD (.FrameIndex 3) (.Other 2)) (.Constant 8)) =
        some (some (.TargetFrameIndex 3), .TargetConstant 8, some (.Other 2))) := by
  refine ⟨?_, ?_, ?_⟩
  · simp only [SelectLAAddr, hM]
    generalize (MatchAddress dag Addr SystemZRRIAddressMode.fresh false 0).2 = AM
    obtain ⟨bt, br, bf, ir, d⟩ := AM
    by_cases hd : d = 0 <;>
      cases bt <;> cases br <;> cases ir <;> simp [complexityScoreSpec, hd]
  · constructor <;> rfl
  · constructor <;> rfl

/-- Witness of C9: frame slot 3 plus `y` plus 8. -/
theorem SelectLAAddr_cost_gate_witness :
    (SelectLAAddr singleUseDAG (.ADD (.ADD (.FrameIndex 3) (.Other 2)) (.Constant 8))).isSome
      = true :=
  (SelectLAAddr_cost_gate singleUseDAG (.ADD (.ADD (.FrameIndex 3) (.Other 2)) (.Constant 8))
    (by decide)).1.2 (by decide)

/-- C10, as stated, fails for the selectors without the shortcut. With every
node live out (a `CopyToReg` user and another one), `SelectLAAddr` on
`FrameIndex 7 + x` still decomposes the tree (frame-slot base, `x` as index),
and `SelectAddrRI32` and `SelectAddrRI` on `x + 8` emit base `x` with
displacement 8. -/
theorem selectors_without_liveOut_shortcut :
    (hasOneUse liveOutDAG (.ADD (.FrameIndex 7) (.Other 1)) = false ∧
      (SDValue.ADD (.FrameIndex 7) (.Other 1)).getOpcode ≠ .Constant ∧
      (SDValue.ADD (.FrameIndex 7) (.Other 1)).getOpcode ≠ .FrameIndex ∧
      Opcode.CopyToReg ∈ liveOutDAG.uses (.ADD (.FrameIndex 7) (.Other 1))) ∧
    MatchAddress liveOutDAG (.ADD (.FrameIndex 7) (.Other 1)) SystemZRRIAddressMode.fresh false 0 =
      (false, { BaseType := .FrameIndexBase, BaseReg := none, BaseFrameIndex := 7,
                IndexReg := some (.Other 1), Disp := 0 }) ∧
    SelectLAAddr liveOutDAG (.ADD (.FrameIndex 7) (.Other 1)) =
      some (some (.TargetFrameIndex 7), .TargetConstant 0, some (.Other 1)) ∧
    (hasOneUse liveOutDAG (.ADD (.Other 1) (.Constant 8)) = false ∧
      (SDValue.ADD (.Other 1) (.Constant 8)).getOpcode ≠ .Constant ∧
      (SDValue.ADD (.Other 1) (.Constant 8)).getOpcode ≠ .FrameIndex ∧
      Opcode.CopyToReg ∈ liveOutDAG.uses (.ADD (.Other 1) (.Constant 8))) ∧
    SelectAddrRI32 liveOutDAG (.ADD (.Other 1) (.Constant 8)) =
      some (.Other 1, .TargetConstant 8) ∧
    SelectAddrRI liveOutDAG (.ADD (.Other 1) (.Constant 8)) =
      some (.Other 1, .TargetConstant 8) := by
  refine ⟨by decide, by decide, by decide, by decide, by decide, by decide⟩

/-- C10, amended. In `SelectAddrRRI12` and `SelectAddrRRI20`, an address node
that does not have exactly one use, whose opcode is neither `Constant` nor
`FrameIndex`, and one of whose users is a `CopyToReg`, is not decomposed: the
accumulator emitted from is the fresh one with the whole node as register
base, displacement 0 and no index, and the selector succeeds with operands
base = the node, displacement 0, index = register 0. -/
theorem SelectAddrRRI_liveOut_shortcut (dag : SelectionDAG) (Addr : SDValue)
    (h1 : hasOneUse dag Addr = false) (h2 : Addr.getOpcode ≠ .Constant)
    (h3 : Addr.getOpcode ≠ .FrameIndex) (h4 : Opcode.CopyToReg ∈ dag.uses Addr) :
    MatchAddressBase Addr SystemZRRIAddressMode.fresh =
      (false, { BaseType := .RegBase, BaseReg := some Addr, BaseFrameIndex := 0,
                IndexReg := none, Disp := 0 }) ∧
    SelectAddrRRI12 dag Addr =
      some (getAddressOperands (fillEmptySlots (MatchAddressBase Addr
        SystemZRRIAddressMode.fresh).2)) ∧
    SelectAddrRRI20 dag Addr =
      some (getAddressOperands (fillEmptySlots (MatchAddressBase Addr
        SystemZRRIAddressMode.fresh).2)) ∧
    SelectAddrRRI12 dag Addr = some (some Addr, .TargetConstant 0, some (.Register 0)) ∧
    SelectAddrRRI20 dag Addr = some (some Addr, .TargetConstant 0, some (.Register 0)) := by
  have hS : liveOutUse dag Addr = true := by
    simp only [liveOutUse, h1, Bool.not_false, Bool.true_and, Bool.and_eq_true,
      bne_iff_ne, ne_eq, List.any_eq_true, beq_iff_eq]
    exact ⟨⟨h2, h3⟩, Opcode.CopyToReg, h4, rfl⟩
  have hB : MatchAddressBase Addr SystemZRRIAddressMode.fresh =
      (false, { BaseType := .RegBase, BaseReg := some Addr, BaseFrameIndex := 0,
                IndexReg := none, Disp := 0 }) := by
    simp [MatchAddressBase, SystemZRRIAddressMode.fresh]
  have h12 : SelectAddrRRI12 dag Addr =
      some (getAddressOperands (fillEmptySlots (MatchAddressBase Addr
        SystemZRRIAddressMode.fresh).2)) := by
    simp [SelectAddrRRI12, hS]
  have h20 : SelectAddrRRI20 dag Addr =
      some (getAddressOperands (fillEmptySlots (MatchAddressBase Addr
        SystemZRRIAddressMode.fresh).2)) := by
    simp [SelectAddrRRI20, hS]
  refine ⟨hB, h12, h20, ?_, ?_⟩
  · rw [h12, hB]; rfl
  · rw [h20, hB]; rfl

/-- Witness of C10, amended: `x + 8` live out. -/
theorem SelectAddrRRI_liveOut_shortcut_witness :
    SelectAddrRRI12 liveOutDAG (.ADD (.Other 1) (.Constant 8)) =
      some (some (.ADD (.Other 1) (.Constant 8)), .TargetConstant 0, some (.Register 0)) ∧
    SelectAddrRRI20 liveOutDAG (.ADD (.Other 1) (.Constant 8)) =
      some (some (.ADD (.Other 1) (.Constant 8)), .TargetConstant 0, some (.Register 0)) :=
  (SelectAddrRRI_liveOut_shortcut liveOutDAG (.ADD (.Other 1) (.Constant 8))
    (by decide) (by decide) (by decide) (by decide)).2.2.2

/-- C11, as stated, fails on `x + y` entered with a frame-slot base and a free
index: neither ordered pairing succeeds (the first operand takes the index,
the second finds both slots taken), the slots are not both empty, and
`MatchAddress` succeeds with the whole addition node as index. -/
theorem MatchAddress_ADD_absorbed_whole :
    (MatchAddress singleUseDAG (.Other 1) frameAM true 1).1 = false ∧
    (MatchAddress singleUseDAG (.Other 2)
      (MatchAddress singleUseDAG (.Other 1) frameAM true 1).2 true 1).1 = true ∧
    (MatchAddress singleUseDAG (.Other 2) frameAM true 1).1 = false ∧
    (MatchAddress singleUseDAG (.Other 1)
      (MatchAddress singleUseDAG (.Other 2) frameAM true 1).2 true 1).1 = true ∧
    ¬ (frameAM.BaseType = .RegBase ∧ frameAM.BaseReg = none ∧ frameAM.IndexReg = none) ∧
    MatchAddress singleUseDAG (.ADD (.Other 1) (.Other 2)) frameAM true 0 =
      (false, { BaseType := .FrameIndexBase, BaseReg := none, BaseFrameIndex := 3,
                IndexReg := some (.ADD (.Other 1) (.Other 2)), Disp := 16 }) := by
  refine ⟨by decide, by decide, by decide, by decide, by decide, by decide⟩

/-- C11, amended. For an addition node `A + B` at depth at most 5, if neither
ordered pairing succeeds for both operands (the first as run on the entry
DAG, the second as run on the DAG the first left) and the base and index slots
of the entry accumulator are not both empty, `MatchAddress` is
`MatchAddressBase` on the whole addition node and the entry accumulator: it
fails, leaving the accumulator unchanged, iff both slots are taken, and
otherwise puts the whole addition node into the free slot. -/
theorem MatchAddress_ADD_unpaired (dag : SelectionDAG) (A B : SDValue)
    (AM : SystemZRRIAddressMode) (is12Bit : Bool) (Depth : Nat) (hD : Depth ≤ 5)
    (h1 : ¬ ((MatchAddress dag A AM is12Bit (Depth + 1)).1 = false ∧
        (MatchAddress (dagAfterMatch dag A AM is12Bit (Depth + 1)) B
          (MatchAddress dag A AM is12Bit (Depth + 1)).2 is12Bit (Depth + 1)).1 = false))
    (h2 : ¬ ((MatchAddress (dagAfterPair dag A B AM is12Bit (Depth + 1)) B AM
          is12Bit (Depth + 1)).1 = false ∧
        (MatchAddress (dagAfterMatch (dagAfterPair dag A B AM is12Bit (Depth + 1)) B AM
            is12Bit (Depth + 1)) A
          (MatchAddress (dagAfterPair dag A B AM is12Bit (Depth + 1)) B AM
            is12Bit (Depth + 1)).2 is12Bit (Depth + 1)).1 = false))
    (h3 : ¬ (AM.BaseType = .RegBase ∧ AM.BaseReg = none ∧ AM.IndexReg = none)) :
    MatchAddress dag (.ADD A B) AM is12Bit Depth = MatchAddressBase (.ADD A B) AM ∧
    ((MatchAddress dag (.ADD A B) AM is12Bit Depth).1 = true ↔
      (AM.BaseType = .FrameIndexBase ∨ AM.BaseReg ≠ none) ∧ AM.IndexReg ≠ none) ∧
    ((MatchAddress dag (.ADD A B) AM is12Bit Depth).1 = true →
      (MatchAddress dag (.ADD A B) AM is12Bit Depth).2 = AM) ∧
    ((MatchAddress dag (.ADD A B) AM is12Bit Depth).1 = false →
      (MatchAddress dag (.ADD A B) AM is12Bit Depth).2 =
          { AM with BaseReg := some (.ADD A B) } ∨
      (MatchAddress dag (.ADD A B) AM is12Bit Depth).2 =
          { AM with IndexReg := some (.ADD A B) }) := by
  have hD5 : ¬ Depth > 5 := by omega
  have hEq : MatchAddress dag (.ADD A B) AM is12Bit Depth =
      MatchAddressBase (.ADD A B) AM := by
    rw [MatchAddress_ADD dag A B AM is12Bit Depth hD5, if_neg h1, if_neg h2]
    rw [if_neg (by simpa [Option.isNone_iff_eq_none] using h3)]
  rw [hEq]
  obtain ⟨bt, br, bf, ir, d⟩ := AM
  cases bt <;> cases br <;> cases ir <;> simp_all [MatchAddressBase]

/-- Witness of C11, amended: `x + y` on the full accumulator fails and hands
it back. -/
theorem MatchAddress_ADD_unpaired_witness :
    MatchAddress singleUseDAG (.ADD (.Other 1) (.Other 2)) fullAM true 0 = (true, fullAM) :=
  (MatchAddress_ADD_unpaired singleUseDAG (.Other 1) (.Other 2) fullAM true 0
    (by decide) (by decide) (by decide) (by decide)).1

/-- A value in the range of `int64_t` is its own two's-complement reduction. -/
theorem toInt64_of_range (x : Int) (h1 : -9223372036854775808 ≤ x)
    (h2 : x ≤ 9223372036854775807) : toInt64 x = x := by
  unfold toInt64
  omega

/-- From a displacement inside the policy's field and an `int64_t` addend, the
64-bit sum fits the field iff the exact sum does. -/
theorem dispFits_toInt64_add (is12Bit : Bool) (d v : Int) (hd : dispFits is12Bit d)
    (hv1 : -9223372036854775808 ≤ v) (hv2 : v ≤ 9223372036854775807) :
    dispFits is12Bit (toInt64 (d + v)) ↔ dispFits is12Bit (d + v) := by
  unfold dispFits toInt64 at *
  cases is12Bit <;> simp at hd ⊢ <;> omega

theorem getSExtValue_range (val : Int) :
    -9223372036854775808 ≤ getSExtValue val ∧ getSExtValue val ≤ 9223372036854775807 := by
  unfold getSExtValue toInt64
  omega

/-- The policy's predicate in terms of `dispFits`. -/
theorem isImm_eq_ite (is12Bit : Bool) (x : Int) :
    (if is12Bit = true then isImmZExt12 x else isImmSExt20 x) =
      if dispFits is12Bit x then some x else none := by
  unfold dispFits isImmZExt12 isImmSExt20
  cases is12Bit <;> simp

/-- C13. Integer-constant rule, at depth at most 5. With `c` the value of the
constant node and `AM.Disp + c` the `int64_t` sum the code forms: if the sum
fits the policy's field, `MatchAddress` succeeds with that sum as displacement
and nothing else changed; otherwise the outcome is that of `MatchAddressBase`
on the constant node, displacement unchanged. The 64-bit sum is the exact sum
whenever the exact sum fits, and fits exactly when the exact sum does once the
entry displacement lies in the field. `Constant 5000` under the 12-bit policy
from the fresh accumulator becomes the register base, displacement 0. -/
theorem MatchAddress_Constant_rule (dag : SelectionDAG) (val : Int)
    (AM : SystemZRRIAddressMode) (is12Bit : Bool) (Depth : Nat) (hD : Depth ≤ 5) :
    (dispFits is12Bit (toInt64 (AM.Disp + getSExtValue val)) →
      MatchAddress dag (.Constant val) AM is12Bit Depth =
        (false, { AM with Disp := toInt64 (AM.Disp + getSExtValue val) })) ∧
    (¬ dispFits is12Bit (toInt64 (AM.Disp + getSExtValue val)) →
      MatchAddress dag (.Constant val) AM is12Bit Depth =
        MatchAddressBase (.Constant val) AM ∧
      (MatchAddress dag (.Constant val) AM is12Bit Depth).2.Disp = AM.Disp) ∧
    (dispFits is12Bit (AM.Disp + getSExtValue val) →
      MatchAddress dag (.Constant val) AM is12Bit Depth =
        (false, { AM with Disp := AM.Disp + getSExtValue val })) ∧
    (dispFits is12Bit AM.Disp → ¬ dispFits is12Bit (AM.Disp + getSExtValue val) →
      MatchAddress dag (.Constant val) AM is12Bit Depth =
        MatchAddressBase (.Constant val) AM ∧
      (MatchAddress dag (.Constant val) AM is12Bit Depth).2.Disp = AM.Disp) ∧
    MatchAddress dag (.Constant 5000) SystemZRRIAddressMode.fresh true 0 =
      (false, { BaseType := .RegBase, BaseReg := some (.Constant 5000), BaseFrameIndex := 0,
                IndexReg := none, Disp := 0 }) := by
  have hD5 : ¬ Depth > 5 := by omega
  have hyes : dispFits is12Bit (toInt64 (AM.Disp + getSExtValue val)) →
      MatchAddress dag (.Constant val) AM is12Bit Depth =
        (false, { AM with Disp := toInt64 (AM.Disp + getSExtValue val) }) := by
    intro h
    rw [MatchAddress_Constant dag val AM is12Bit Depth hD5, isImm_eq_ite, if_pos h]
  have hno : ¬ dispFits is12Bit (toInt64 (AM.Disp + getSExtValue val)) →
      MatchAddress dag (.Constant val) AM is12Bit Depth =
        MatchAddressBase (.Constant val) AM ∧
      (MatchAddress dag (.Constant val) AM is12Bit Depth).2.Disp = AM.Disp := by
    intro h
    rw [MatchAddress_Constant dag val AM is12Bit Depth hD5, isImm_eq_ite, if_neg h]
    exact ⟨rfl, MatchAddressBase_Disp _ AM⟩
  refine ⟨hyes, hno, ?_, ?_, rfl⟩
  · intro h
    have hr : toInt64 (AM.Disp + getSExtValue val) = AM.Disp + getSExtValue val := by
      apply toInt64_of_range
      · unfold dispFits at h; split_ifs at h <;> omega
      · unfold dispFits at h; split_ifs at h <;> omega
    have := hyes (by rw [hr]; exact h)
    rw [hr] at this
    exact this
  · intro hd h
    apply hno
    rw [dispFits_toInt64_add is12Bit AM.Disp (getSExtValue val) hd
      (getSExtValue_range val).1 (getSExtValue_range val).2]
    exact h

/-- Witness of C13: 100 onto displacement 16 under the 12-bit policy, and 5000
onto displacement 16, which goes to the free index slot. -/
theorem MatchAddress_Constant_rule_witness :
    MatchAddress singleUseDAG (.Constant 100) frameAM true 0 =
      (false, { frameAM with Disp := 116 }) ∧
    MatchAddress singleUseDAG (.Constant 5000) frameAM true 0 =
      (false, { frameAM with IndexReg := some (.Constant 5000) }) :=
  ⟨(MatchAddress_Constant_rule singleUseDAG 100 frameAM true 0 (by decide)).2.2.1 (by decide),
   ((MatchAddress_Constant_rule singleUseDAG 5000 frameAM true 0 (by decide)).2.2.2.1
      (by decide) (by decide)).1⟩

/-- C14. Frame slot plus constant folds completely: for every frame slot `f`
and constant `c` with `0 ≤ c ≤ 4095`, `MatchAddress` on
`FrameIndex f + Constant c` from the fresh accumulator under the 12-bit policy
succeeds with frame-slot base `f`, displacement `c` and no index. -/
theorem MatchAddress_FrameIndex_plus_Constant (dag : SelectionDAG) (f c : Int)
    (h0 : 0 ≤ c) (h1 : c ≤ 4095) :
    MatchAddress dag (.ADD (.FrameIndex f) (.Constant c)) SystemZRRIAddressMode.fresh true 0 =
      (false, { BaseType := .FrameIndexBase, BaseReg := none, BaseFrameIndex := f,
                IndexReg := none, Disp := c }) := by
  have hF : MatchAddress dag (.FrameIndex f) SystemZRRIAddressMode.fresh true 1 =
      (false, { BaseType := .FrameIndexBase, BaseReg := none, BaseFrameIndex := f,
                IndexReg := none, Disp := 0 }) := by
    rw [MatchAddress_FrameIndex dag f _ true 1 (by decide)]
    rfl
  have hc : toInt64 (0 + getSExtValue c) = c := by
    unfold getSExtValue toInt64
    omega
  have hC : ∀ d : SelectionDAG, MatchAddress d (.Constant c)
      { BaseType := .FrameIndexBase, BaseReg := none, BaseFrameIndex := f,
        IndexReg := none, Disp := 0 } true 1 =
      (false, { BaseType := .FrameIndexBase, BaseReg := none, BaseFrameIndex := f,
                IndexReg := none, Disp := c }) := by
    intro d
    rw [MatchAddress_Constant d c _ true 1 (by decide), isImm_eq_ite]
    simp only [hc]
    rw [if_pos (by unfold dispFits; simp; omega)]
  rw [MatchAddress_ADD dag _ _ _ true 0 (by decide), hF]
  simp only [hC]
  simp

/-- Witness of C14: `FrameIndex 7 + Constant 100`. -/
theorem MatchAddress_FrameIndex_plus_Constant_witness :
    MatchAddress singleUseDAG (.ADD (.FrameIndex 7) (.Constant 100))
        SystemZRRIAddressMode.fresh true 0 =
      (false, { BaseType := .FrameIndexBase, BaseReg := none, BaseFrameIndex := 7,
                IndexReg := none, Disp := 100 }) :=
  MatchAddress_FrameIndex_plus_Constant singleUseDAG 7 100 (by decide) (by decide)

/-- What `MatchAddressBase` can do to an accumulator: the displacement, the
base kind and the frame index stay, and each slot holds what it held or `N`. -/
theorem MatchAddressBase_slots (N : SDValue) (AM : SystemZRRIAddressMode) :
    (MatchAddressBase N AM).2.Disp = AM.Disp ∧
    (MatchAddressBase N AM).2.BaseType = AM.BaseType ∧
    (MatchAddressBase N AM).2.BaseFrameIndex = AM.BaseFrameIndex ∧
    ((MatchAddressBase N AM).2.BaseReg = AM.BaseReg ∨
      (MatchAddressBase N AM).2.BaseReg = some N) ∧
    ((MatchAddressBase N AM).2.IndexReg = AM.IndexReg ∨
      (MatchAddressBase N AM).2.IndexReg = some N) := by
  obtain ⟨bt, br, bf, ir, d⟩ := AM
  cases bt <;> cases br <;> cases ir <;> simp [MatchAddressBase]

/-- C16. Depth cut-off equals the fallback: at every depth above 5, for every
node, accumulator and policy, `MatchAddress` returns the flag and the
accumulator of `MatchAddressBase`; the displacement is not folded into and
each slot holds what it held at entry or the whole node `N`. -/
theorem MatchAddress_depth_cutoff (dag : SelectionDAG) (N : SDValue)
    (AM : SystemZRRIAddressMode) (is12Bit : Bool) (Depth : Nat) (hD : Depth > 5) :
    MatchAddress dag N AM is12Bit Depth = MatchAddressBase N AM ∧
    (MatchAddress dag N AM is12Bit Depth).1 = (MatchAddressBase N AM).1 ∧
    (MatchAddress dag N AM is12Bit Depth).2 = (MatchAddressBase N AM).2 ∧
    (MatchAddress dag N AM is12Bit Depth).2.Disp = AM.Disp ∧
    ((MatchAddress dag N AM is12Bit Depth).2.BaseReg = AM.BaseReg ∨
      (MatchAddress dag N AM is12Bit Depth).2.BaseReg = some N) ∧
    ((MatchAddress dag N AM is12Bit Depth).2.IndexReg = AM.IndexReg ∨
      (MatchAddress dag N AM is12Bit Depth).2.IndexReg = some N) := by
  have hEq := MatchAddress_deep dag N AM is12Bit Depth hD
  have hS := MatchAddressBase_slots N AM
  rw [hEq]
  exact ⟨rfl, rfl, rfl, hS.1, hS.2.2.2.1, hS.2.2.2.2⟩

/-- Witness of C16: at depth 6 the sum `FrameIndex 7 + Constant 100` is not
decomposed; the whole node becomes the register base, displacement 0. -/
theorem MatchAddress_depth_cutoff_witness :
    MatchAddress singleUseDAG (.ADD (.FrameIndex 7) (.Constant 100))
        SystemZRRIAddressMode.fresh true 6 =
      (false, { BaseType := .RegBase, BaseReg := some (.ADD (.FrameIndex 7) (.Constant 100)),
                BaseFrameIndex := 0, IndexReg := none, Disp := 0 }) :=
  (MatchAddress_depth_cutoff singleUseDAG (.ADD (.FrameIndex 7) (.Constant 100))
    SystemZRRIAddressMode.fresh true 6 (by decide)).1

/-- C17. Exact firing condition of the subtraction rewrite, at depth at most
5. If matching `A` succeeds, leaves the index slot empty and leaves a
frame-slot base or a register base that does not have exactly one use in the
DAG as matching `A` left it, `MatchAddress` on `A - B` succeeds with the
accumulator of `A` and the synthesized `0 - B` as index, and the DAG is the
one matching `A` left with `0 - B` created. In every other case the result is
`MatchAddressBase` on the whole subtraction node and the entry accumulator,
and the DAG is the one matching `A` left. -/
theorem MatchAddress_SUB_firing (dag : SelectionDAG) (A B : SDValue)
    (AM : SystemZRRIAddressMode) (is12Bit : Bool) (Depth : Nat) (hD : Depth ≤ 5) :
    (subRewriteFires dag A AM is12Bit Depth →
      MatchAddress dag (.SUB A B) AM is12Bit Depth =
        (false, { (MatchAddress dag A AM is12Bit (Depth + 1)).2 with
                  IndexReg := some (.SUB (.Constant 0) B) }) ∧
      dagAfterMatch dag (.SUB A B) AM is12Bit Depth =
        ((dagAfterMatch dag A AM is12Bit (Depth + 1)).getNeg B).2) ∧
    (¬ subRewriteFires dag A AM is12Bit Depth →
      MatchAddress dag (.SUB A B) AM is12Bit Depth = MatchAddressBase (.SUB A B) AM ∧
      dagAfterMatch dag (.SUB A B) AM is12Bit Depth =
        dagAfterMatch dag A AM is12Bit (Depth + 1)) := by
  have hD5 : ¬ Depth > 5 := by omega
  have h1 : MatchAddress dag (.SUB A B) AM is12Bit Depth =
      (MatchAddressDAG dag (.SUB A B) AM is12Bit Depth).1 := rfl
  have h2 : dagAfterMatch dag (.SUB A B) AM is12Bit Depth =
      (MatchAddressDAG dag (.SUB A B) AM is12Bit Depth).2 := rfl
  rw [h1, h2, MatchAddressDAG_SUB dag A B AM is12Bit Depth hD5]
  unfold subRewriteFires
  generalize MatchAddress dag A AM is12Bit (Depth + 1) = r
  generalize dagAfterMatch dag A AM is12Bit (Depth + 1) = d
  obtain ⟨flag, bt, br, bf, ir, dd⟩ := r
  cases br with
  | none => cases flag <;> cases bt <;> cases ir <;> simp [getConstant]
  | some b =>
    cases hu : hasOneUse d b <;> cases flag <;> cases bt <;> cases ir <;>
      simp [getConstant, hu]

/-- Witness of C17: `x - y` fires from the fresh accumulator when `x` has two
uses, and is kept whole as register base when `x` has a single use; `0 - x3`
at depth 5 fires on the DAG that the rewrite of `FrameIndex 7 - x2` left,
where the constant 0 has got a second user. -/
theorem MatchAddress_SUB_firing_witness :
    MatchAddress multiUseDAG (.SUB (.Other 1) (.Other 2)) SystemZRRIAddressMode.fresh true 0 =
      (false, { BaseType := .RegBase, BaseReg := some (.Other 1), BaseFrameIndex := 0,
                IndexReg := some (.SUB (.Constant 0) (.Other 2)), Disp := 0 }) ∧
    MatchAddress singleUseDAG (.SUB (.Other 1) (.Other 2)) SystemZRRIAddressMode.fresh true 0 =
      MatchAddressBase (.SUB (.Other 1) (.Other 2)) SystemZRRIAddressMode.fresh ∧
    MatchAddress (dagAfterMatch singleUseDAG (.SUB (.FrameIndex 7) (.Other 2))
        SystemZRRIAddressMode.fresh true 1)
        (.SUB (.Constant 0) (.Other 3)) SystemZRRIAddressMode.fresh true 5 =
      (false, { BaseType := .RegBase, BaseReg := some (.Constant 0), BaseFrameIndex := 0,
                IndexReg := some (.SUB (.Constant 0) (.Other 3)), Disp := 0 }) :=
  ⟨((MatchAddress_SUB_firing multiUseDAG (.Other 1) (.Other 2)
      SystemZRRIAddressMode.fresh true 0 (by decide)).1
      ⟨by decide, by decide, Or.inr ⟨by decide, .Other 1, by decide, by decide⟩⟩).1,
   ((MatchAddress_SUB_firing singleUseDAG (.Other 1) (.Other 2)
      SystemZRRIAddressMode.fresh true 0 (by decide)).2
      (by
        rintro ⟨_, _, h | ⟨_, b, hb, hu⟩⟩
        · exact absurd h (by decide)
        · have hb1 : b = .Other 1 := by
            have : (MatchAddress singleUseDAG (.Other 1)
              SystemZRRIAddressMode.fresh true 1).2.BaseReg = some (.Other 1) := by decide
            rw [this] at hb
            exact (Option.some.inj hb).symm
          subst hb1
          exact absurd hu (by decide))).1,
   ((MatchAddress_SUB_firing
      (dagAfterMatch singleUseDAG (.SUB (.FrameIndex 7) (.Other 2))
        SystemZRRIAddressMode.fresh true 1)
      (.Constant 0) (.Other 3) SystemZRRIAddressMode.fresh true 5 (by decide)).1
      ⟨by decide, by decide, Or.inr ⟨by decide, .Constant 0, by decide, by decide⟩⟩).1⟩

/-- C19. The matcher can fail only when both slots are taken: with an empty
base slot or an empty index slot at entry `MatchAddress` succeeds, for every
node, policy and depth. So it never fails on the fresh accumulator,
`SelectAddrRRI20` returns true for every address, and `SelectLAAddr` never
takes its `return false` after the match. -/
theorem MatchAddress_succeeds_with_free_slot (dag : SelectionDAG) (N : SDValue)
    (AM : SystemZRRIAddressMode) (is12Bit : Bool) (Depth : Nat)
    (h : (AM.BaseType = .RegBase ∧ AM.BaseReg = none) ∨ AM.IndexReg = none) :
    (MatchAddress dag N AM is12Bit Depth).1 = false ∧
    (MatchAddress dag N SystemZRRIAddressMode.fresh is12Bit Depth).1 = false ∧
    (SelectAddrRRI20 dag N).isSome = true ∧
    (MatchAddress dag N SystemZRRIAddressMode.fresh false 0).1 = false := by
  have key : ∀ (AM : SystemZRRIAddressMode) (b : Bool) (D : Nat),
      (AM.BaseType = .RegBase ∧ AM.BaseReg = none) ∨ AM.IndexReg = none →
      (MatchAddress dag N AM b D).1 = false := by
    intro AM b D hfree
    by_contra hc
    have hc1 : (MatchAddress dag N AM b D).1 = true := by simpa using hc
    have hb := MatchAddress_fail_eq_base dag N AM b D hc1
    rw [hb] at hc1
    obtain ⟨bt, br, bf, ir, d⟩ := AM
    cases bt <;> cases br <;> cases ir <;> simp_all [MatchAddressBase]
  have hfresh : ∀ (b : Bool) (D : Nat),
      (MatchAddress dag N SystemZRRIAddressMode.fresh b D).1 = false :=
    fun b D => key _ b D (Or.inr rfl)
  refine ⟨key AM is12Bit Depth h, hfresh is12Bit Depth, ?_, hfresh false 0⟩
  cases hL : liveOutUse dag N <;> simp [SelectAddrRRI20, hL, hfresh false 0]

/-- Witness of C19: `x + y` entered with a frame-slot base and a free index
succeeds. -/
theorem MatchAddress_succeeds_with_free_slot_witness :
    (MatchAddress singleUseDAG (.ADD (.Other 1) (.Other 2)) frameAM true 0).1 = false :=
  (MatchAddress_succeeds_with_free_slot singleUseDAG (.ADD (.Other 1) (.Other 2)) frameAM
    true 0 (by decide)).1

theorem slotsKept_refl (AM : SystemZRRIAddressMode) : slotsKept AM AM :=
  ⟨fun _ => ⟨rfl, rfl, rfl⟩, fun _ => rfl⟩

theorem slotsKept_trans (AM R1 R2 : SystemZRRIAddressMode)
    (h1 : slotsKept AM R1) (h2 : slotsKept R1 R2) : slotsKept AM R2 := by
  unfold slotsKept at *
  obtain ⟨bt, br, bf, ir, d⟩ := AM
  obtain ⟨bt1, br1, bf1, ir1, d1⟩ := R1
  obtain ⟨bt2, br2, bf2, ir2, d2⟩ := R2
  simp only at h1 h2 ⊢
  constructor
  · intro h
    obtain ⟨e1, e2, e3⟩ := h1.1 h
    subst e1 e2 e3
    exact h2.1 h
  · intro h
    have e := h1.2 h
    subst e
    exact h2.2 h

theorem slotsKept_Disp (AM R : SystemZRRIAddressMode) (Imm : Int) (h : slotsKept AM R) :
    slotsKept AM { R with Disp := Imm } := h

theorem MatchAddressBase_slotsKept (N : SDValue) (AM : SystemZRRIAddressMode) :
    slotsKept AM (MatchAddressBase N AM).2 := by
  unfold slotsKept
  obtain ⟨bt, br, bf, ir, d⟩ := AM
  cases bt <;> cases br <;> cases ir <;> simp [MatchAddressBase]

/-- No call of the matcher, successful or not, changes a slot that was taken
at entry. -/
theorem MatchAddress_slotsKept (dag : SelectionDAG) (is12Bit : Bool) (N : SDValue) :
    ∀ (AM : SystemZRRIAddressMode) (Depth : Nat),
      slotsKept AM (MatchAddress dag N AM is12Bit Depth).2 := by
  induction N generalizing dag with
  | Constant val =>
    intro AM Depth
    by_cases hD : Depth > 5
    · rw [MatchAddress_deep dag _ AM is12Bit Depth hD]; exact MatchAddressBase_slotsKept _ AM
    · rw [MatchAddress_Constant dag val AM is12Bit Depth hD]
      split
      · exact slotsKept_Disp AM AM _ (slotsKept_refl AM)
      · exact MatchAddressBase_slotsKept _ AM
  | FrameIndex idx =>
    intro AM Depth
    by_cases hD : Depth > 5
    · rw [MatchAddress_deep dag _ AM is12Bit Depth hD]; exact MatchAddressBase_slotsKept _ AM
    · rw [MatchAddress_FrameIndex dag idx AM is12Bit Depth hD]
      split_ifs with h
      · unfold slotsKept
        obtain ⟨bt, br, bf, ir, d⟩ := AM
        cases bt <;> cases br <;> simp_all
      · exact MatchAddressBase_slotsKept _ AM
  | SUB A B ihA _ =>
    intro AM Depth
    by_cases hD : Depth > 5
    · rw [MatchAddress_deep dag _ AM is12Bit Depth hD]; exact MatchAddressBase_slotsKept _ AM
    · rw [MatchAddress_SUB dag A B AM is12Bit Depth hD]
      split_ifs with h1 h2 h3
      · exact MatchAddressBase_slotsKept _ AM
      · exact MatchAddressBase_slotsKept _ AM
      · exact MatchAddressBase_slotsKept _ AM
      · have ih := ihA dag AM (Depth + 1)
        unfold slotsKept at ih ⊢
        refine ⟨ih.1, ?_⟩
        intro hI
        have := ih.2 hI
        rw [this] at h2
        cases hAI : AM.IndexReg with
        | none => exact absurd hAI hI
        | some i => simp [hAI] at h2
  | ADD A B ihA ihB =>
    intro AM Depth
    by_cases hD : Depth > 5
    · rw [MatchAddress_deep dag _ AM is12Bit Depth hD]; exact MatchAddressBase_slotsKept _ AM
    · rw [MatchAddress_ADD dag A B AM is12Bit Depth hD]
      split_ifs with h1 h2 h3
      · exact slotsKept_trans _ _ _ (ihA _ AM (Depth + 1)) (ihB _ _ (Depth + 1))
      · exact slotsKept_trans _ _ _ (ihB _ AM (Depth + 1)) (ihA _ _ (Depth + 1))
      · unfold slotsKept
        obtain ⟨bt, br, bf, ir, d⟩ := AM
        cases bt <;> cases br <;> cases ir <;> simp_all
      · exact MatchAddressBase_slotsKept _ AM
  | OR L R ihL _ =>
    intro AM Depth
    by_cases hD : Depth > 5
    · rw [MatchAddress_deep dag _ AM is12Bit Depth hD]; exact MatchAddressBase_slotsKept _ AM
    · by_cases hN : (SDValue.OR L R).isDefaultCase = true
      · rw [MatchAddress_default dag _ AM is12Bit Depth hN]
        exact MatchAddressBase_slotsKept _ AM
      · obtain ⟨c, hR⟩ : ∃ c, R.dynCastConstantSDNode = some c := by
          cases hc : R.dynCastConstantSDNode with
          | none => simp [SDValue.isDefaultCase, hc] at hN
          | some c => exact ⟨c, rfl⟩
        rw [MatchAddress_OR_Constant dag L R c AM is12Bit Depth hD hR]
        split
        · split_ifs
          · exact slotsKept_Disp AM _ _ (ihL _ AM (Depth + 1))
          · exact MatchAddressBase_slotsKept _ AM
        · exact MatchAddressBase_slotsKept _ AM
  | _ =>
    intro AM Depth
    rw [MatchAddress_default dag _ AM is12Bit Depth (by rfl)]
    exact MatchAddressBase_slotsKept _ AM

/-- C12. Slots are assigned at most once: after a successful `MatchAddress`,
a base slot that was taken at entry (non-null register base, or frame-slot
base) has the same base kind, register and frame index, and an index slot that
was taken at entry has the same node; in particular a frame-slot base stays
the frame-slot base it was. -/
theorem MatchAddress_slots_assigned_once (dag : SelectionDAG) (N : SDValue)
    (AM : SystemZRRIAddressMode) (is12Bit : Bool) (Depth : Nat)
    (_hs : (MatchAddress dag N AM is12Bit Depth).1 = false) :
    ((AM.BaseType = .FrameIndexBase ∨ AM.BaseReg ≠ none) →
      (MatchAddress dag N AM is12Bit Depth).2.BaseType = AM.BaseType ∧
      (MatchAddress dag N AM is12Bit Depth).2.BaseReg = AM.BaseReg ∧
      (MatchAddress dag N AM is12Bit Depth).2.BaseFrameIndex = AM.BaseFrameIndex) ∧
    (AM.IndexReg ≠ none →
      (MatchAddress dag N AM is12Bit Depth).2.IndexReg = AM.IndexReg) ∧
    (AM.BaseType = .FrameIndexBase →
      (MatchAddress dag N AM is12Bit Depth).2.BaseType = .FrameIndexBase ∧
      (MatchAddress dag N AM is12Bit Depth).2.BaseReg = AM.BaseReg ∧
      (MatchAddress dag N AM is12Bit Depth).2.BaseFrameIndex = AM.BaseFrameIndex) := by
  have h := MatchAddress_slotsKept dag is12Bit N AM Depth
  refine ⟨h.1, h.2, ?_⟩
  intro hF
  have := h.1 (Or.inl hF)
  rw [hF] at this
  exact this

/-- Witness of C12: `(FrameIndex 7 + x) + 100` entered with frame-slot base 3
succeeds (`FrameIndex 7` goes to the index, `x` does not fit, and the left sum
is taken whole as index) and the base is still frame slot 3. -/
theorem MatchAddress_slots_assigned_once_witness :
    (MatchAddress singleUseDAG (.ADD (.ADD (.FrameIndex 7) (.Other 1)) (.Constant 100))
      frameAM true 0).1 = false ∧
    (MatchAddress singleUseDAG (.ADD (.ADD (.FrameIndex 7) (.Other 1)) (.Constant 100))
      frameAM true 0).2.BaseType = .FrameIndexBase ∧
    (MatchAddress singleUseDAG (.ADD (.ADD (.FrameIndex 7) (.Other 1)) (.Constant 100))
      frameAM true 0).2.BaseFrameIndex = 3 :=
  ⟨by decide,
   ((MatchAddress_slots_assigned_once singleUseDAG
      (.ADD (.ADD (.FrameIndex 7) (.Other 1)) (.Constant 100)) frameAM true 0
      (by decide)).2.2 (by decide)).1,
   ((MatchAddress_slots_assigned_once singleUseDAG
      (.ADD (.ADD (.FrameIndex 7) (.Other 1)) (.Constant 100)) frameAM true 0
      (by decide)).2.2 (by decide)).2.2⟩

/-- A successful `MatchAddressBase` adds the value of the node to the value
the accumulator denotes. -/
theorem MatchAddressBase_denote (σ : Valuation) (N : SDValue) (AM : SystemZRRIAddressMode)
    (hs : (MatchAddressBase N AM).1 = false) :
    (MatchAddressBase N AM).2.denote σ = word (AM.denote σ + N.eval σ) := by
  obtain ⟨bt, br, bf, ir, d⟩ := AM
  cases bt <;> cases br <;> cases ir <;>
    simp_all [MatchAddressBase, SystemZRRIAddressMode.denote,
      SystemZRRIAddressMode.baseValue, SystemZRRIAddressMode.indexValue, word] <;>
    omega

/-- On a tree without `OR` a successful match adds the value of the tree to
the value the accumulator denotes. -/
theorem MatchAddress_denote (dag : SelectionDAG) (σ : Valuation) (is12Bit : Bool)
    (N : SDValue) (hN : N.orFree = true) :
    ∀ (AM : SystemZRRIAddressMode) (Depth : Nat),
      (MatchAddress dag N AM is12Bit Depth).1 = false →
      (MatchAddress dag N AM is12Bit Depth).2.denote σ = word (AM.denote σ + N.eval σ) := by
  induction N generalizing dag with
  | Constant val =>
    intro AM Depth hs
    by_cases hD : Depth > 5
    · rw [MatchAddress_deep dag _ AM is12Bit Depth hD] at hs ⊢
      exact MatchAddressBase_denote σ _ AM hs
    · rw [MatchAddress_Constant dag val AM is12Bit Depth hD] at hs ⊢
      split at hs
      · next Imm hImm =>
        have hI := (dispFits_of_isImm is12Bit _ Imm hImm).2
        simp only [SystemZRRIAddressMode.denote, SystemZRRIAddressMode.baseValue,
          SystemZRRIAddressMode.indexValue, SDValue.eval, hI, getSExtValue, toInt64, word]
        omega
      · exact MatchAddressBase_denote σ _ AM hs
  | FrameIndex idx =>
    intro AM Depth hs
    by_cases hD : Depth > 5
    · rw [MatchAddress_deep dag _ AM is12Bit Depth hD] at hs ⊢
      exact MatchAddressBase_denote σ _ AM hs
    · rw [MatchAddress_FrameIndex dag idx AM is12Bit Depth hD] at hs ⊢
      split_ifs at hs ⊢ with h
      · obtain ⟨bt, br, bf, ir, d⟩ := AM
        cases bt <;> cases br <;> cases ir <;>
          simp_all [SystemZRRIAddressMode.denote, SystemZRRIAddressMode.baseValue,
            SystemZRRIAddressMode.indexValue, SDValue.eval, word] <;>
          omega
      · exact MatchAddressBase_denote σ _ AM hs
  | SUB A B ihA _ =>
    intro AM Depth hs
    by_cases hD : Depth > 5
    · rw [MatchAddress_deep dag _ AM is12Bit Depth hD] at hs ⊢
      exact MatchAddressBase_denote σ _ AM hs
    · have hA : A.orFree = true := by
        simp only [SDValue.orFree, Bool.and_eq_true] at hN
        exact hN.1
      rw [MatchAddress_SUB dag A B AM is12Bit Depth hD] at hs ⊢
      split_ifs at hs ⊢ with h1 h2 h3
      · exact MatchAddressBase_denote σ _ AM hs
      · exact MatchAddressBase_denote σ _ AM hs
      · exact MatchAddressBase_denote σ _ AM hs
      · have ih := ihA dag hA AM (Depth + 1) (by simpa using h1)
        have hI : (MatchAddress dag A AM is12Bit (Depth + 1)).2.IndexReg = none := by
          simpa using h2
        simp only [SystemZRRIAddressMode.denote, SystemZRRIAddressMode.baseValue,
          SystemZRRIAddressMode.indexValue, hI, SDValue.eval, getConstant, word] at ih ⊢
        omega
  | ADD A B ihA ihB =>
    intro AM Depth hs
    by_cases hD : Depth > 5
    · rw [MatchAddress_deep dag _ AM is12Bit Depth hD] at hs ⊢
      exact MatchAddressBase_denote σ _ AM hs
    · have hAB : A.orFree = true ∧ B.orFree = true := by
        simpa only [SDValue.orFree, Bool.and_eq_true] using hN
      rw [MatchAddress_ADD dag A B AM is12Bit Depth hD] at hs ⊢
      split_ifs at hs ⊢ with h1 h2 h3
      · have e1 := ihA dag hAB.1 AM (Depth + 1) h1.1
        have e2 := ihB _ hAB.2 _ (Depth + 1) h1.2
        rw [e2, e1]
        simp only [SDValue.eval, word]
        omega
      · have e1 := ihB _ hAB.2 AM (Depth + 1) h2.1
        have e2 := ihA _ hAB.1 _ (Depth + 1) h2.2
        rw [e2, e1]
        simp only [SDValue.eval, word]
        omega
      · obtain ⟨bt, br, bf, ir, d⟩ := AM
        cases bt <;> cases br <;> cases ir <;>
          simp_all [SystemZRRIAddressMode.denote, SystemZRRIAddressMode.baseValue,
            SystemZRRIAddressMode.indexValue, SDValue.eval, word]
        omega
      · exact MatchAddressBase_denote σ _ AM hs
  | OR L R _ _ => simp [SDValue.orFree] at hN
  | _ =>
    intro AM Depth hs
    rw [MatchAddress_default dag _ AM is12Bit Depth (by rfl)] at hs ⊢
    exact MatchAddressBase_denote σ _ AM hs

/-- C20. Value preservation on OR-free trees: under any valuation, for every
tree without an `OR` node, every entry accumulator, policy and depth, if
`MatchAddress` succeeds then the value denoted by the resulting accumulator is
the value denoted by the entry accumulator plus the value of the tree, modulo
2^64. -/
theorem MatchAddress_value_preserved (dag : SelectionDAG) (σ : Valuation) (N : SDValue)
    (AM : SystemZRRIAddressMode) (is12Bit : Bool) (Depth : Nat)
    (hN : N.orFree = true)
    (hs : (MatchAddress dag N AM is12Bit Depth).1 = false) :
    (MatchAddress dag N AM is12Bit Depth).2.denote σ = word (AM.denote σ + N.eval σ) :=
  MatchAddress_denote dag σ is12Bit N hN AM Depth hs

/-- Witness of C20: `(FrameIndex 7 - y) + 100` from the fresh accumulator
under the 12-bit policy, the subtraction being rewritten to a negated index. -/
theorem MatchAddress_value_preserved_witness :
    MatchAddress multiUseDAG (.ADD (.SUB (.FrameIndex 7) (.Other 2)) (.Constant 100))
        SystemZRRIAddressMode.fresh true 0 =
      (false, { BaseType := .FrameIndexBase, BaseReg := none, BaseFrameIndex := 7,
                IndexReg := some (.SUB (.Constant 0) (.Other 2)), Disp := 100 }) ∧
    (MatchAddress multiUseDAG (.ADD (.SUB (.FrameIndex 7) (.Other 2)) (.Constant 100))
        SystemZRRIAddressMode.fresh true 0).2.denote sampleValuation =
      word (SystemZRRIAddressMode.fresh.denote sampleValuation +
        (SDValue.ADD (.SUB (.FrameIndex 7) (.Other 2)) (.Constant 100)).eval sampleValuation) :=
  ⟨by decide,
   MatchAddress_value_preserved multiUseDAG sampleValuation
     (.ADD (.SUB (.FrameIndex 7) (.Other 2)) (.Constant 100))
     SystemZRRIAddressMode.fresh true 0 (by decide) (by decide)⟩

/-- A budget above `6 - Depth` is never exhausted: the fuel-bounded matcher
returns the result and the DAG of `MatchAddressDAG`, whatever the height of
the tree. -/
theorem MatchAddressFuelDAG_eq (is12Bit : Bool) :
    ∀ (fuel : Nat) (dag : SelectionDAG) (N : SDValue) (AM : SystemZRRIAddressMode)
      (Depth : Nat), 6 - Depth < fuel →
      MatchAddressFuelDAG fuel dag N AM is12Bit Depth =
        some (MatchAddressDAG dag N AM is12Bit Depth) := by
  intro fuel
  induction fuel with
  | zero => intro dag N AM Depth h; omega
  | succ fuel ih =>
    intro dag N AM Depth h
    by_cases hD : Depth > 5
    · rw [MatchAddressDAG_deep dag N AM is12Bit Depth hD]
      unfold MatchAddressFuelDAG
      rw [if_pos hD]
    · have ih1 : ∀ (d : SelectionDAG) (M : SDValue) (AM1 : SystemZRRIAddressMode),
          MatchAddressFuelDAG fuel d M AM1 is12Bit (Depth + 1) =
            some (MatchAddressDAG d M AM1 is12Bit (Depth + 1)) :=
        fun d M AM1 => ih d M AM1 (Depth + 1) (by omega)
      cases N with
      | Constant val =>
        rw [MatchAddressDAG, if_neg hD]
        simp only [MatchAddressFuelDAG, if_neg hD]
        split <;> rfl
      | FrameIndex idx =>
        rw [MatchAddressDAG, if_neg hD]
        simp only [MatchAddressFuelDAG, if_neg hD]
        split_ifs <;> rfl
      | SUB A B =>
        rw [MatchAddressDAG, if_neg hD]
        simp only [MatchAddressFuelDAG, if_neg hD, ih1]
        split_ifs <;> rfl
      | ADD A B =>
        rw [MatchAddressDAG, if_neg hD]
        simp only [MatchAddressFuelDAG, if_neg hD, ih1]
        split_ifs <;> simp_all
      | OR L R =>
        rw [MatchAddressDAG, if_neg hD]
        simp only [MatchAddressFuelDAG, if_neg hD]
        cases hR : R.dynCastConstantSDNode with
        | none => rfl
        | some c =>
          simp only [ih1]
          split
          · split_ifs <;> rfl
          · rfl
      | _ =>
        rw [MatchAddressDAG_default dag _ AM is12Bit Depth (by rfl)]
        simp only [MatchAddressFuelDAG, if_neg hD]

/-- A budget above `6 - Depth` is never exhausted: the fuel-bounded matcher
returns the result of `MatchAddress`, whatever the height of the tree. -/
theorem MatchAddressFuel_eq (dag : SelectionDAG) (is12Bit : Bool) :
    ∀ (fuel : Nat) (N : SDValue) (AM : SystemZRRIAddressMode) (Depth : Nat),
      6 - Depth < fuel →
      MatchAddressFuel dag fuel N AM is12Bit Depth =
        some (MatchAddress dag N AM is12Bit Depth) := by
  intro fuel N AM Depth h
  rw [MatchAddressFuel, MatchAddressFuelDAG_eq is12Bit fuel dag N AM Depth h]
  rfl

/-- C15. Termination by the depth bound. Counting nested calls, a budget of
`6 - Depth + 1` activations (or any larger one) always suffices for
`MatchAddress` to return, on every node, accumulator, policy and depth and
whatever the height of the tree, since each call passes `Depth + 1` and a call
with `Depth > 5` makes none (one activation suffices there). On the left-deep
chain of 20 nested additions from depth 0, seven nested activations return the
result: success, base `x20`, index the chain of 19. -/
theorem MatchAddress_terminates (dag : SelectionDAG) (N : SDValue)
    (AM : SystemZRRIAddressMode) (is12Bit : Bool) (Depth fuel : Nat)
    (hf : 6 - Depth < fuel) :
    MatchAddressFuel dag fuel N AM is12Bit Depth =
      some (MatchAddress dag N AM is12Bit Depth) ∧
    MatchAddressFuel dag (6 - Depth + 1) N AM is12Bit Depth =
      some (MatchAddress dag N AM is12Bit Depth) ∧
    (Depth > 5 → MatchAddressFuel dag 1 N AM is12Bit Depth = some (MatchAddressBase N AM)) ∧
    MatchAddressFuel dag 7 (addChain 20) SystemZRRIAddressMode.fresh is12Bit 0 =
      some (MatchAddress dag (addChain 20) SystemZRRIAddressMode.fresh is12Bit 0) ∧
    MatchAddress singleUseDAG (addChain 20) SystemZRRIAddressMode.fresh is12Bit 0 =
      (false, { BaseType := .RegBase, BaseReg := some (.Other 20), BaseFrameIndex := 0,
                IndexReg := some (addChain 19), Disp := 0 }) := by
  refine ⟨MatchAddressFuel_eq dag is12Bit fuel N AM Depth hf,
    MatchAddressFuel_eq dag is12Bit _ N AM Depth (by omega), ?_,
    MatchAddressFuel_eq dag is12Bit 7 _ _ 0 (by omega), ?_⟩
  · intro hD
    rw [MatchAddressFuel_eq dag is12Bit 1 N AM Depth (by omega),
      MatchAddress_deep dag N AM is12Bit Depth hD]
  · cases is12Bit <;> decide

/-- Witness of C15: the chain of 20 additions with a budget of seven nested
calls; a budget of six is exhausted. -/
theorem MatchAddress_terminates_witness :
    MatchAddressFuel singleUseDAG 7 (addChain 20) SystemZRRIAddressMode.fresh true 0 =
      some (MatchAddress singleUseDAG (addChain 20) SystemZRRIAddressMode.fresh true 0) ∧
    MatchAddressFuel singleUseDAG 6 (addChain 20) SystemZRRIAddressMode.fresh true 0 = none :=
  ⟨(MatchAddress_terminates singleUseDAG (addChain 20) SystemZRRIAddressMode.fresh true 0 7
      (by decide)).1,
   by decide⟩

/-! ### Bit-level facts for the OR fold -/

theorem allOnes64_testBit (i : Nat) : allOnes64.testBit i = decide (i < 64) := by
  have h : allOnes64 = 2 ^ 64 - 1 := by decide
  rw [h, Nat.testBit_two_pow_sub_one]

theorem not64_testBit (x i : Nat) :
    (not64 x).testBit i = (decide (i < 64) && !x.testBit i) := by
  have hlt : x % 18446744073709551616 < 2 ^ 64 := Nat.mod_lt _ (by decide)
  have h : not64 x = 2 ^ 64 - (x % 18446744073709551616 + 1) := by
    unfold not64 allOnes64
    omega
  rw [h, Nat.testBit_two_pow_sub_succ hlt]
  have h2 : (18446744073709551616 : Nat) = 2 ^ 64 := by decide
  rw [h2, Nat.testBit_mod_two_pow]
  by_cases hi : i < 64 <;> simp [hi]

/-- The test `(KZ | ~C) == ~0ULL` of the selectors says that every bit of `C`
is known zero: `KZ & C == C`. -/
theorem knownZero_test_iff (KZ C : Nat) (hK : KZ < 2 ^ 64) (hC : C < 2 ^ 64) :
    (KZ ||| not64 C) = allOnes64 ↔ KZ &&& C = C := by
  constructor
  · intro h
    apply Nat.eq_of_testBit_eq
    intro i
    have hi := congrArg (fun n => n.testBit i) h
    simp only [Nat.testBit_lor, not64_testBit, allOnes64_testBit] at hi
    rw [Nat.testBit_land]
    by_cases h64 : i < 64
    · simp only [h64, decide_True, Bool.true_and] at hi
      cases hk : KZ.testBit i <;> cases hc : C.testBit i <;> simp_all
    · have : C.testBit i = false :=
        Nat.testBit_lt_two_pow (lt_of_lt_of_le hC (Nat.pow_le_pow_right (by decide) (by omega)))
      simp [this]
  · intro h
    apply Nat.eq_of_testBit_eq
    intro i
    have hi := congrArg (fun n => n.testBit i) h
    simp only [Nat.testBit_land] at hi
    rw [Nat.testBit_lor, not64_testBit, allOnes64_testBit]
    by_cases h64 : i < 64
    · simp only [h64, decide_True, Bool.true_and]
      cases hk : KZ.testBit i <;> cases hc : C.testBit i <;> simp_all
    · have : KZ.testBit i = false :=
        Nat.testBit_lt_two_pow (lt_of_lt_of_le hK (Nat.pow_le_pow_right (by decide) (by omega)))
      simp [this, h64]

/-- A word with no bit in the known-zero mask has no bit in common with a
constant covered by the mask. -/
theorem land_eq_zero_of_knownZero (l KZ C : Nat) (hl : l &&& KZ = 0) (hC : KZ &&& C = C) :
    l &&& C = 0 := by
  apply Nat.eq_of_testBit_eq
  intro i
  have h1 := congrArg (fun n => n.testBit i) hl
  have h2 := congrArg (fun n => n.testBit i) hC
  simp only [Nat.testBit_land, Nat.zero_testBit] at h1 h2 ⊢
  cases hli : l.testBit i <;> cases hk : KZ.testBit i <;> cases hc : C.testBit i <;> simp_all

/-- Without common bits, `OR` is addition and does not carry out of 64 bits. -/
theorem lor_eq_add_mod (l C : Nat) (hl : l < 2 ^ 64) (hC : C < 2 ^ 64) (h : l &&& C = 0) :
    l ||| C = (l + C) % 2 ^ 64 := by
  have hl1 : l % 2 ^ 64 = l := Nat.mod_eq_of_lt hl
  have hC1 : C % 2 ^ 64 = C := Nat.mod_eq_of_lt hC
  have hb : BitVec.ofNat 64 l &&& BitVec.ofNat 64 C = 0#64 := by
    apply BitVec.eq_of_toNat_eq
    rw [BitVec.toNat_and, BitVec.toNat_ofNat, BitVec.toNat_ofNat, hl1, hC1, h]
    rfl
  have := congrArg BitVec.toNat
    (BitVec.add_eq_or_of_and_eq_zero (BitVec.ofNat 64 l) (BitVec.ofNat 64 C) hb)
  rw [BitVec.toNat_add, BitVec.toNat_or, BitVec.toNat_ofNat, BitVec.toNat_ofNat,
    hl1, hC1] at this
  exact this.symm

theorem SDValue.eval_range (σ : Valuation) (N : SDValue) :
    0 ≤ N.eval σ ∧ N.eval σ < 18446744073709551616 := by
  induction N with
  | OR a b iha ihb =>
    simp only [SDValue.eval]
    have ha : (a.eval σ).toNat < 2 ^ 64 := by omega
    have hb : (b.eval σ).toNat < 2 ^ 64 := by omega
    have := Nat.or_lt_two_pow ha hb
    constructor
    · exact Int.ofNat_nonneg _
    · have h2 : ((a.eval σ).toNat ||| (b.eval σ).toNat : Nat) < 18446744073709551616 := by
        simpa using this
      rw [Int.ofNat_eq_coe]
      exact_mod_cast h2
  | _ => simp only [SDValue.eval, word]; omega

theorem SDValue.OR_ne_left (L R : SDValue) : SDValue.OR L R ≠ L := by
  intro h
  have := congrArg sizeOf h
  simp at this
  omega

theorem selectBaseOnly_OR (L R : SDValue) :
    selectBaseOnly (.OR L R) = some (.OR L R, .TargetConstant 0) := rfl

theorem SelectAddrRI32_OR (dag : SelectionDAG) (L R : SDValue) :
    SelectAddrRI32 dag (.OR L R) =
      match isImmZExt12Node R with
      | some Imm =>
        if (dag.KnownZero L % 18446744073709551616 ||| not64 (toUInt64 Imm)) = allOnes64 then
          some (L, .TargetConstant Imm)
        else some (.OR L R, .TargetConstant 0)
      | none => some (.OR L R, .TargetConstant 0) := by
  simp only [SelectAddrRI32, selectBaseOnly_OR, getTargetConstant, beq_iff_eq]

theorem SelectAddrRI_OR (dag : SelectionDAG) (L R : SDValue) :
    SelectAddrRI dag (.OR L R) =
      match isImmSExt20Node R with
      | some Imm =>
        if (dag.KnownZero L % 18446744073709551616 ||| not64 (toUInt64 Imm)) = allOnes64 then
          some (L, .TargetConstant Imm)
        else some (.OR L R, .TargetConstant 0)
      | none => some (.OR L R, .TargetConstant 0) := by
  simp only [SelectAddrRI, selectBaseOnly_OR, getTargetConstant, beq_iff_eq]

/-- With the left operand free of the known-zero bits and the constant passing
the selectors' test, base plus displacement is the value of the `OR` node. -/
theorem OR_fold_value (σ : Valuation) (L : SDValue) (val Imm : Int) (KZ : Nat)
    (hImm : Imm = getSExtValue val) (hK : KZ < 2 ^ 64)
    (ht : (KZ ||| not64 (toUInt64 Imm)) = allOnes64)
    (hl : (L.eval σ).toNat &&& KZ = 0) :
    word (L.eval σ + (SDValue.TargetConstant Imm).eval σ) =
      (SDValue.OR L (.Constant val)).eval σ := by
  have hr := SDValue.eval_range σ L
  have hc : toUInt64 Imm < 2 ^ 64 := by
    unfold toUInt64
    omega
  have hl64 : (L.eval σ).toNat < 2 ^ 64 := by omega
  have hdis := land_eq_zero_of_knownZero _ KZ _ hl ((knownZero_test_iff KZ _ hK hc).1 ht)
  have hadd := lor_eq_add_mod _ _ hl64 hc hdis
  have hcv : (word val).toNat = toUInt64 Imm := by
    subst hImm
    unfold toUInt64 word getSExtValue toInt64
    congr 1
    omega
  simp only [SDValue.eval, hcv, hadd, Int.ofNat_eq_coe]
  unfold toUInt64 word
  omega

theorem isImmZExt12Node_some (R : SDValue) (C : Int) (h : isImmZExt12Node R = some C) :
    ∃ val, R = .Constant val ∧ C = getSExtValue val ∧ 0 ≤ C ∧ C ≤ 4095 := by
  cases R with
  | Constant val =>
    refine ⟨val, rfl, ?_⟩
    simp only [isImmZExt12Node, isImmZExt12] at h
    split_ifs at h with hr
    cases h
    omega
  | _ => simp [isImmZExt12Node] at h

theorem isImmSExt20Node_some (R : SDValue) (C : Int) (h : isImmSExt20Node R = some C) :
    ∃ val, R = .Constant val ∧ C = getSExtValue val ∧ -524288 ≤ C ∧ C ≤ 524287 := by
  cases R with
  | Constant val =>
    refine ⟨val, rfl, ?_⟩
    simp only [isImmSExt20Node, isImmSExt20] at h
    split_ifs at h with hr
    cases h
    omega
  | _ => simp [isImmSExt20Node] at h

/-- What makes either base+displacement selector emit `(L, D)` for `L | R`:
the shape of its `OR` case with the predicate `f` of the selector. -/
theorem OR_fold_only_when (KZ : Nat) (L R D : SDValue) (f : SDValue → Option Int)
    (h : (match f R with
          | some Imm =>
            if (KZ ||| not64 (toUInt64 Imm)) = allOnes64 then some (L, SDValue.TargetConstant Imm)
            else some (SDValue.OR L R, SDValue.TargetConstant 0)
          | none => some (SDValue.OR L R, SDValue.TargetConstant 0)) = some (L, D)) :
    ∃ C, f R = some C ∧ D = .TargetConstant C ∧
      (KZ ||| not64 (toUInt64 C)) = allOnes64 := by
  cases hf : f R with
  | none =>
    rw [hf] at h
    simp only [Option.some.injEq, Prod.mk.injEq] at h
    exact absurd h.1 (SDValue.OR_ne_left L R)
  | some C =>
    rw [hf] at h
    simp only at h
    split_ifs at h with ht
    · simp only [Option.some.injEq, Prod.mk.injEq, true_and] at h
      exact ⟨C, rfl, h.symm, ht⟩
    · simp only [Option.some.injEq, Prod.mk.injEq] at h
      exact absurd h.1 (SDValue.OR_ne_left L R)

/-- C18. Bit-level soundness of the OR fold in `SelectAddrRI32` and
`SelectAddrRI`. An address `L | R` is emitted as base `L` with a displacement
`D` only when `R` is a constant `C` that fits the selector's field (0..4095,
resp. -524288..524287), `D` is `C`, and `(KZ | ~C) == ~0` holds for the 64-bit
known-zero mask `KZ` of `L`; then `KZ & C == C`, and if `L` has no bit of `KZ`
set, base plus displacement is the value of the `OR` node modulo 2^64. For all
64-bit words the test is equivalent to `KZ & C == C`, and with `l & KZ == 0`
it gives `l | C == (l + C) mod 2^64`. -/
theorem SelectAddrRI_OR_fold_sound (dag : SelectionDAG) (σ : Valuation) (L R D : SDValue) :
    (SelectAddrRI32 dag (.OR L R) = some (L, D) →
      ∃ val C, R = .Constant val ∧ C = getSExtValue val ∧ D = .TargetConstant C ∧
        (0 ≤ C ∧ C ≤ 4095) ∧
        (dag.KnownZero L % 18446744073709551616 ||| not64 (toUInt64 C)) = allOnes64 ∧
        (dag.KnownZero L % 18446744073709551616) &&& toUInt64 C = toUInt64 C ∧
        ((L.eval σ).toNat &&& (dag.KnownZero L % 18446744073709551616) = 0 →
          word (L.eval σ + D.eval σ) = (SDValue.OR L R).eval σ)) ∧
    (SelectAddrRI dag (.OR L R) = some (L, D) →
      ∃ val C, R = .Constant val ∧ C = getSExtValue val ∧ D = .TargetConstant C ∧
        (-524288 ≤ C ∧ C ≤ 524287) ∧
        (dag.KnownZero L % 18446744073709551616 ||| not64 (toUInt64 C)) = allOnes64 ∧
        (dag.KnownZero L % 18446744073709551616) &&& toUInt64 C = toUInt64 C ∧
        ((L.eval σ).toNat &&& (dag.KnownZero L % 18446744073709551616) = 0 →
          word (L.eval σ + D.eval σ) = (SDValue.OR L R).eval σ)) ∧
    (∀ KZ C : Nat, KZ < 2 ^ 64 → C < 2 ^ 64 →
      ((KZ ||| not64 C) = allOnes64 ↔ KZ &&& C = C)) ∧
    (∀ KZ C l : Nat, KZ < 2 ^ 64 → C < 2 ^ 64 → l < 2 ^ 64 → l &&& KZ = 0 →
      (KZ ||| not64 C) = allOnes64 → l ||| C = (l + C) % 2 ^ 64) := by
  have hK : dag.KnownZero L % 18446744073709551616 < 2 ^ 64 := by omega
  have hU : ∀ C : Int, toUInt64 C < 2 ^ 64 := by
    intro C
    unfold toUInt64
    omega
  refine ⟨?_, ?_, knownZero_test_iff, ?_⟩
  · intro h
    rw [SelectAddrRI32_OR] at h
    obtain ⟨C, hf, hDC, ht⟩ := OR_fold_only_when _ L R D isImmZExt12Node h
    obtain ⟨val, hR, hC, hr⟩ := isImmZExt12Node_some R C hf
    refine ⟨val, C, hR, hC, hDC, hr, ht, (knownZero_test_iff _ _ hK (hU C)).1 ht, ?_⟩
    intro hl
    rw [hR, hDC]
    exact OR_fold_value σ L val C _ hC hK ht hl
  · intro h
    rw [SelectAddrRI_OR] at h
    obtain ⟨C, hf, hDC, ht⟩ := OR_fold_only_when _ L R D isImmSExt20Node h
    obtain ⟨val, hR, hC, hr⟩ := isImmSExt20Node_some R C hf
    refine ⟨val, C, hR, hC, hDC, hr, ht, (knownZero_test_iff _ _ hK (hU C)).1 ht, ?_⟩
    intro hl
    rw [hR, hDC]
    exact OR_fold_value σ L val C _ hC hK ht hl
  · intro KZ C l hKZ hC hl hlz ht
    exact lor_eq_add_mod l C hl hC
      (land_eq_zero_of_knownZero l KZ C hlz ((knownZero_test_iff KZ C hKZ hC).1 ht))

/-- Witness of C18: `x | 5` with the three low bits of `x` known zero is
emitted as base `x`, displacement 5 by both selectors; with `x = 1000` the
address is `1005 = 1000 + 5`. With no bit known zero the node is kept whole. -/
theorem SelectAddrRI_OR_fold_sound_witness :
    SelectAddrRI32 alignedDAG (.OR (.Other 1) (.Constant 5)) =
      some (.Other 1, .TargetConstant 5) ∧
    SelectAddrRI alignedDAG (.OR (.Other 1) (.Constant 5)) =
      some (.Other 1, .TargetConstant 5) ∧
    (∃ val C, SDValue.Constant 5 = .Constant val ∧ C = getSExtValue val ∧
      SDValue.TargetConstant 5 = .TargetConstant C ∧ (0 ≤ C ∧ C ≤ 4095) ∧
      (alignedDAG.KnownZero (.Other 1) % 18446744073709551616 ||| not64 (toUInt64 C)) =
        allOnes64 ∧
      (alignedDAG.KnownZero (.Other 1) % 18446744073709551616) &&& toUInt64 C = toUInt64 C ∧
      (((SDValue.Other 1).eval sampleValuation).toNat &&&
          (alignedDAG.KnownZero (.Other 1) % 18446744073709551616) = 0 →
        word ((SDValue.Other 1).eval sampleValuation +
            (SDValue.TargetConstant 5).eval sampleValuation) =
          (SDValue.OR (.Other 1) (.Constant 5)).eval sampleValuation)) ∧
    (SDValue.OR (.Other 1) (.Constant 5)).eval sampleValuation = 1005 ∧
    SelectAddrRI32 singleUseDAG (.OR (.Other 1) (.Constant 5)) =
      some (.OR (.Other 1) (.Constant 5), .TargetConstant 0) :=
  ⟨by decide, by decide,
   (SelectAddrRI_OR_fold_sound alignedDAG sampleValuation (.Other 1) (.Constant 5)
      (.TargetConstant 5)).1 (by decide),
   by decide, by decide⟩

/-- C21. No false acceptance through 64-bit wrap-around. For a displacement
`d` inside the policy's field and an `int64_t` constant `v`, the policy's
predicate applied to the 64-bit sum of `d` and `v` accepts iff the exact sum
`d + v` lies in the field, and the immediate it returns is the exact sum. So
the constant rule and the OR rule, entered with displacement `d` at depth at
most 5, assign a displacement only when the exact sum fits, and the
displacement they assign is `d + v`. -/
theorem fit_test_no_wraparound (dag : SelectionDAG) (is12Bit : Bool) (d v : Int)
    (hd : dispFits is12Bit d)
    (hv1 : -9223372036854775808 ≤ v) (hv2 : v ≤ 9223372036854775807) :
    ((if is12Bit = true then isImmZExt12 (toInt64 (d + v))
        else isImmSExt20 (toInt64 (d + v))).isSome = true ↔ dispFits is12Bit (d + v)) ∧
    (∀ Imm, (if is12Bit = true then isImmZExt12 (toInt64 (d + v))
        else isImmSExt20 (toInt64 (d + v))) = some Imm →
      Imm = d + v ∧ dispFits is12Bit (d + v)) ∧
    getSExtValue v = v ∧
    (∀ (AM : SystemZRRIAddressMode) (Depth : Nat), AM.Disp = d → Depth ≤ 5 →
      MatchAddress dag (.Constant v) AM is12Bit Depth =
        if dispFits is12Bit (d + v) then (false, { AM with Disp := d + v })
        else MatchAddressBase (.Constant v) AM) ∧
    (∀ (L : SDValue) (AM : SystemZRRIAddressMode) (Depth : Nat), AM.Disp = d → Depth ≤ 5 →
      MatchAddress dag (.OR L (.Constant v)) AM is12Bit Depth =
        if dispFits is12Bit (d + v) ∧
            (MatchAddress dag L AM is12Bit (Depth + 1)).1 = false ∧
            dag.MaskedValueIsZero L v = true then
          (false, { (MatchAddress dag L AM is12Bit (Depth + 1)).2 with Disp := d + v })
        else MatchAddressBase (.OR L (.Constant v)) AM) := by
  have hiff := dispFits_toInt64_add is12Bit d v hd hv1 hv2
  have hex : dispFits is12Bit (d + v) → toInt64 (d + v) = d + v := by
    intro h
    apply toInt64_of_range
    · unfold dispFits at h; split_ifs at h <;> omega
    · unfold dispFits at h; split_ifs at h <;> omega
  have hv : getSExtValue v = v := toInt64_of_range v hv1 hv2
  refine ⟨?_, ?_, hv, ?_, ?_⟩
  · rw [isImm_eq_ite]
    split_ifs with h
    · simpa using hiff.1 h
    · simpa using fun h2 => h (hiff.2 h2)
  · intro Imm hImm
    rw [isImm_eq_ite] at hImm
    split_ifs at hImm with h
    have hx := hex (hiff.1 h)
    cases hImm
    exact ⟨hx, hiff.1 h⟩
  · intro AM Depth hAM hD
    subst hAM
    rw [MatchAddress_Constant dag v AM is12Bit Depth (by omega), hv, isImm_eq_ite]
    by_cases h : dispFits is12Bit (AM.Disp + v)
    · rw [if_pos (hiff.2 h), if_pos h, hex h]
    · rw [if_neg (fun h2 => h (hiff.1 h2)), if_neg h]
  · intro L AM Depth hAM hD
    subst hAM
    rw [MatchAddress_OR_Constant dag L (.Constant v) v AM is12Bit Depth (by omega) rfl, hv,
      isImm_eq_ite]
    by_cases h : dispFits is12Bit (AM.Disp + v)
    · rw [if_pos (hiff.2 h), hex h]
      simp only
      split_ifs with h1 h2 h2
      · rfl
      · exact absurd ⟨h, h1⟩ h2
      · exact absurd h2.2 h1
      · rfl
    · rw [if_neg (fun h2 => h (hiff.1 h2))]
      simp only
      rw [if_neg (fun h2 => h h2.1)]

/-- Witness of C21: under the 12-bit policy, 4095 plus the largest `int64_t`
wraps to a negative number and is refused, as the exact sum is; 16 plus 100 is
accepted as 116. -/
theorem fit_test_no_wraparound_witness :
    toInt64 (4095 + 9223372036854775807) = -9223372036854771714 ∧
    isImmZExt12 (toInt64 (4095 + 9223372036854775807)) = none ∧
    ((if true = true then isImmZExt12 (toInt64 (4095 + 9223372036854775807))
        else isImmSExt20 (toInt64 (4095 + 9223372036854775807))).isSome = true ↔
      dispFits true (4095 + 9223372036854775807)) ∧
    ¬ dispFits true (4095 + 9223372036854775807) ∧
    MatchAddress singleUseDAG (.Constant 100) frameAM true 0 =
      (false, { frameAM with Disp := 116 }) :=
  ⟨by decide, by decide,
   (fit_test_no_wraparound singleUseDAG true 4095 9223372036854775807
      (by decide) (by decide) (by decide)).1,
   by decide,
   (fit_test_no_wraparound singleUseDAG true 16 100 (by decide) (by decide)
      (by decide)).2.2.2.1 frameAM 0 rfl (by decide)⟩

/-- The operands emitted after the empty slots were filled: a null register
base and a null index come out as register 0. -/
theorem getAddressOperands_fillEmptySlots (AM : SystemZRRIAddressMode) :
    getAddressOperands (fillEmptySlots AM) =
      (if AM.BaseType = .RegBase then some (AM.BaseReg.getD (.Register 0))
        else some (.TargetFrameIndex AM.BaseFrameIndex),
       .TargetConstant AM.Disp,
       some (AM.IndexReg.getD (.Register 0))) := by
  obtain ⟨bt, br, bf, ir, d⟩ := AM
  cases bt <;> cases br <;> cases ir <;> rfl

/-- C22. Actual accept/reject rule of `SelectAddrRRI12`. Where the live-out
shortcut does not apply, with `AM12` the accumulator `MatchAddress` produces
from a fresh accumulator under the 12-bit policy and `AM20` the accumulator it
then produces from a second fresh accumulator under the 20-bit policy (the
second run sees the DAG as the first left it), the selector returns false iff
`AM12.Disp == 0` and `AM20.Disp != 0`; otherwise it returns true with base,
displacement and index taken from `AM12`, a null register base and a null
index replaced by register 0. `x + 5000` is rejected, `x + 100` is accepted
with displacement 100. On `(5000 + (2 + (3 + (4 + (0 - x3))))) + (FI7 - x2)`
the first run creates `0 - x2`, the second run then ends with displacement 0
like the first, where a run on the entry DAG ends with 5009, and the address
is accepted. -/
theorem SelectAddrRRI12_actual_rule (dag : SelectionDAG) (Addr : SDValue)
    (hS : liveOutUse dag Addr = false) :
    (SelectAddrRRI12 dag Addr = none ↔
      (MatchAddress dag Addr SystemZRRIAddressMode.fresh true 0).2.Disp = 0 ∧
      (MatchAddress (dagAfterMatch dag Addr SystemZRRIAddressMode.fresh true 0) Addr
        SystemZRRIAddressMode.fresh false 0).2.Disp ≠ 0) ∧
    (¬ ((MatchAddress dag Addr SystemZRRIAddressMode.fresh true 0).2.Disp = 0 ∧
        (MatchAddress (dagAfterMatch dag Addr SystemZRRIAddressMode.fresh true 0) Addr
          SystemZRRIAddressMode.fresh false 0).2.Disp ≠ 0) →
      SelectAddrRRI12 dag Addr =
        some (if (MatchAddress dag Addr SystemZRRIAddressMode.fresh true 0).2.BaseType = .RegBase
              then some ((MatchAddress dag Addr SystemZRRIAddressMode.fresh true 0).2.BaseReg.getD
                (.Register 0))
              else some (.TargetFrameIndex
                (MatchAddress dag Addr SystemZRRIAddressMode.fresh true 0).2.BaseFrameIndex),
             .TargetConstant (MatchAddress dag Addr SystemZRRIAddressMode.fresh true 0).2.Disp,
             some ((MatchAddress dag Addr SystemZRRIAddressMode.fresh true 0).2.IndexReg.getD
               (.Register 0)))) ∧
    SelectAddrRRI12 singleUseDAG (.ADD (.Other 1) (.Constant 5000)) = none ∧
    SelectAddrRRI12 singleUseDAG (.ADD (.Other 1) (.Constant 100)) =
      some (some (.Other 1), .TargetConstant 100, some (.Register 0)) ∧
    (liveOutUse singleUseDAG nestedSubAddr = false ∧
      (MatchAddress singleUseDAG nestedSubAddr SystemZRRIAddressMode.fresh true 0).2.Disp = 0 ∧
      (MatchAddress singleUseDAG nestedSubAddr SystemZRRIAddressMode.fresh false 0).2.Disp =
        5009 ∧
      (MatchAddress (dagAfterMatch singleUseDAG nestedSubAddr SystemZRRIAddressMode.fresh true 0)
        nestedSubAddr SystemZRRIAddressMode.fresh false 0).2.Disp = 0 ∧
      SelectAddrRRI12 singleUseDAG nestedSubAddr =
        some (some (.ADD (.Constant 5000)
                (.ADD (.Constant 2) (.ADD (.Constant 3) (.ADD (.Constant 4)
                  (.SUB (.Constant 0) (.Other 3)))))),
              .TargetConstant 0, some (.SUB (.FrameIndex 7) (.Other 2)))) := by
  have h12 := MatchAddress_fresh_succeeds dag Addr true 0
  have h20 := MatchAddress_fresh_succeeds
    (dagAfterMatch dag Addr SystemZRRIAddressMode.fresh true 0) Addr false 0
  have hSel : SelectAddrRRI12 dag Addr =
      if (MatchAddress dag Addr SystemZRRIAddressMode.fresh true 0).2.Disp = 0 ∧
          (MatchAddress (dagAfterMatch dag Addr SystemZRRIAddressMode.fresh true 0) Addr
            SystemZRRIAddressMode.fresh false 0).2.Disp ≠ 0 then none
      else some (getAddressOperands
        (fillEmptySlots (MatchAddress dag Addr SystemZRRIAddressMode.fresh true 0).2)) := by
    simp only [SelectAddrRRI12, hS, h12, h20]
    split_ifs <;> simp_all
  refine ⟨?_, ?_, by decide, by decide, by decide, by decide, by decide, by decide,
    by decide⟩
  · rw [hSel]
    split_ifs with h
    · simp [h]
    · simp [h]
  · intro h
    rw [hSel, if_neg h, getAddressOperands_fillEmptySlots]

/-- Witness of C22: `FrameIndex 7 + 100` with a single use is accepted with
the frame slot as base, displacement 100 and register 0 as index. -/
theorem SelectAddrRRI12_actual_rule_witness :
    SelectAddrRRI12 singleUseDAG (.ADD (.FrameIndex 7) (.Constant 100)) =
      some (some (.TargetFrameIndex 7), .TargetConstant 100, some (.Register 0)) :=
  (SelectAddrRRI12_actual_rule singleUseDAG (.ADD (.FrameIndex 7) (.Constant 100))
    (by decide)).2.1 (by decide)

end SystemZ
